import Mathlib

/-!
# logr: a daily-rotating file logger (shallow embedding of `log.go`)

The Go package keeps one process-wide logger (`Logrer`), guarded by a
`sync.Once`, and writes through the standard `log.Logger` to a file whose name
is derived from the current date.

The embedding passes the process state explicitly as a `World`:

* `Logrer`     the package variable `Logrer *logr` (`none` is the nil pointer);
* `setuponce`  whether `setuponce.Do` has already run its body;
* `files`      the `*os.File` objects created so far; a handle is an index;
* `trace`      every externally visible action, oldest first.

Whatever the operating system and the Go runtime answer during one call of
the package API is collected in an `Env` (clock, `os.Stat`, `os.MkdirAll`,
`os.OpenFile`, `runtime.Caller`, `fmt.Sprintf`).  Go `error` values are
represented by their message text.
-/

namespace Logr

/-! ## Standard-library pieces used by the package -/

/-- Wall-clock reading returned by `time.Now()`. -/
structure Time where
  year : Nat
  month : Nat
  day : Nat
  hour : Nat
  minute : Nat
  second : Nat
deriving DecidableEq, Repr

/-- Calendar range of the month and day fields. -/
def Time.validDate (t : Time) : Prop :=
  1 ≤ t.month ∧ t.month ≤ 12 ∧ 1 ≤ t.day ∧ t.day ≤ 31

instance (t : Time) : Decidable t.validDate := by
  unfold Time.validDate; infer_instance

/-- Same calendar day. -/
def Time.sameDate (a b : Time) : Prop :=
  a.year = b.year ∧ a.month = b.month ∧ a.day = b.day

instance (a b : Time) : Decidable (a.sameDate b) := by
  unfold Time.sameDate; infer_instance

/-- Decimal digit character of `d % 10`. -/
def digitChar (d : Nat) : Char := Char.ofNat (48 + d % 10)

/-- Loop of `log.itoa`: `for i >= 10 || wid > 1 { wid--; emit i%10; i /= 10 }`
followed by the last digit; digits are pushed in front of `acc`. -/
def itoaLoop : Nat → Nat → Nat → List Char → List Char
  | 0, i, _, acc => digitChar i :: acc
  | fuel + 1, i, wid, acc =>
    if i ≥ 10 ∨ wid > 1 then itoaLoop fuel (i / 10) (wid - 1) (digitChar i :: acc)
    else digitChar i :: acc

/-- Fixed-width decimal rendering of a non-negative integer, zero padded to at
least `wid` digits (`log.itoa`, and `appendInt` of package `time`). -/
def itoa (i wid : Nat) : String := String.mk (itoaLoop (i + wid) i wid [])

/-- Layout `"20060102"` of `time.Format`: the package variable `dayFormat`. -/
def dayFormat (t : Time) : String := itoa t.year 4 ++ itoa t.month 2 ++ itoa t.day 2

/-- Header written by a `log.Logger` with flags `log.LstdFlags` after the
prefix: `2006/01/02 15:04:05 `. -/
def stdHeader (t : Time) : String :=
  itoa t.year 4 ++ "/" ++ itoa t.month 2 ++ "/" ++ itoa t.day 2 ++ " " ++
  itoa t.hour 2 ++ ":" ++ itoa t.minute 2 ++ ":" ++ itoa t.second 2 ++ " "

/-- Last element of a slash-separated path (`filepath.Base` on Unix): empty
path gives `.`, trailing slashes are dropped, a path of slashes gives `/`. -/
def filepath.Base (path : String) : String :=
  if path = "" then "."
  else
    let p := (path.data.reverse.dropWhile (fun c => c == '/')).reverse
    let last := (p.reverse.takeWhile (fun c => c != '/')).reverse
    if last = [] then "/" else String.mk last

/-- Arguments of the variadic `v ...interface{}` parameters. -/
inductive Value where
  | int (i : Int)
  | str (s : String)
  | strs (l : List String)
deriving DecidableEq, Repr

/-- The `%v` rendering of an operand. -/
def Value.render : Value → String
  | .int i => toString i
  | .str s => s
  | .strs l => "[" ++ " ".intercalate l ++ "]"

/-- Text of `fmt.Sprintln`: operands separated by spaces, newline appended. -/
def Sprintln (v : List Value) : String := " ".intercalate (v.map Value.render) ++ "\n"

/-- How `os.IsNotExist` and `os.IsPermission` classify a failed `os.Stat`. -/
inductive StatErr where
  | notExist
  | permission
  | other
deriving DecidableEq, Repr

/-- Answers of the operating system and the runtime during one API call.
`stat p = none` means `os.Stat` succeeded; `mkdirAll` and `openFile` return the
error text on failure; `caller skip` is the result of `runtime.Caller(skip)`
called in `setLinePrefix`: the file and line of the frame `skip` levels up. -/
structure Env where
  now : Time
  stat : String → Option StatErr
  mkdirAll : String → Nat → Option String
  openFile : String → Nat → Nat → Option String
  caller : Nat → Option (String × Nat)
  sprintf : String → List Value → String

/-- `os.ModePerm`. -/
def ModePerm : Nat := 0o777

/-- `os.O_RDWR`. -/
def O_RDWR : Nat := 0x2

/-- `os.O_CREATE`. -/
def O_CREATE : Nat := 0x40

/-- `os.O_APPEND`. -/
def O_APPEND : Nat := 0x400

/-! ## Data model -/

/-- Source `type Level int`. -/
abbrev Level := Int

/-- Level constant, `iota` 0. -/
def DEBUG : Level := 0

/-- Level constant, `iota` 1. -/
def INFO : Level := 1

/-- Level constant, `iota` 2. -/
def WARN : Level := 2

/-- Level constant, `iota` 3. -/
def ERROR : Level := 3

/-- Level constant, `iota` 4. -/
def FATAL : Level := 4

/-- Depth handed to `runtime.Caller` by `setLinePrefix`: from there, frame 1 is
`write`, frame 2 the level function, frame 3 its caller. -/
def DefaultCallerDepth : Nat := 3

/-- Table of the level tags, indexed by the level. -/
def levelFlags : List String := ["DEBUG", "INFO", "WARN", "ERROR", "FATAL"]

/-- A value of the Go type `PrintfFunc`, identified by a number; calling it is
recorded in the trace. -/
abbrev PrintfFunc := Nat

/-- Source `Config` (log.go 33-38); a nil `PrintfFunc` is `none`. -/
structure Config where
  FilePath : String := ""
  Encoding : String := ""
  FileNamePrefix : String := ""
  PrintfFunc : Option PrintfFunc := none
deriving DecidableEq, Repr

/-- An `*os.File` object: the name it was opened with and whether `Close` has
been called on it. -/
structure OsFile where
  name : String
  closed : Bool
deriving DecidableEq, Repr

/-- A `*log.Logger` created by `log.New(out, "", log.LstdFlags)`: its output
handle and its current line prefix. -/
structure Logger where
  out : Nat
  linePrefix : String
deriving DecidableEq, Repr

/-- Source `logr` (log.go 40-44): `logFile` is a handle, `none` the nil pointer;
`logger` is `none` for the nil pointer. -/
structure logr where
  config : Config
  logFile : Option Nat
  logger : Option Logger
deriving DecidableEq, Repr

/-- Externally visible actions.  `write` is a `Write` that put the line in the
file; `writeRefused` is a `Write` on a closed file object, which returns
`file already closed` and puts nothing in the file; `hook` is a call of a print
hook with the logger instance, the format and the arguments. -/
inductive Event where
  | stat (path : String)
  | mkdirAll (path : String) (perm : Nat) (ok : Bool)
  | openFile (path : String) (flag : Nat) (perm : Nat) (handle : Option Nat)
  | close (handle : Nat)
  | setOutput (handle : Nat)
  | setPrefix (p : String)
  | write (handle : Nat) (line : String)
  | stderr (line : String)
  | writeRefused (handle : Nat) (line : String)
  | hook (f : PrintfFunc) (l : logr) (format : String) (v : List Value)
  | exit (code : Nat)
deriving DecidableEq, Repr

/-- Process state: the package variables `Logrer` and `setuponce`, the file
objects opened by the package, and the actions performed so far. -/
structure World where
  Logrer : Option logr
  setuponce : Bool
  files : List OsFile
  trace : List Event
deriving DecidableEq, Repr

/-- State of a freshly started process. -/
def World.init : World := { Logrer := none, setuponce := false, files := [], trace := [] }

/-- Appends one action to the trace. -/
def World.emit (w : World) (e : Event) : World := { w with trace := w.trace ++ [e] }

/-- How a call ends: it returns, the process exits, or it panics. -/
inductive Ctl where
  | ret
  | exit (code : Nat)
  | panic (msg : String)
deriving DecidableEq, Repr

/-! ## Path utilities -/

/-- Source `CheckNotExist` (log.go 205-209): `os.IsNotExist` of the error of
`os.Stat(src)`. -/
def CheckNotExist (env : Env) (src : String) (w : World) : World × Bool :=
  (w.emit (.stat src), env.stat src == some .notExist)

/-- Source `CheckPermission` (log.go 211-215): `os.IsPermission` of the error of
`os.Stat(src)`. -/
def CheckPermission (env : Env) (src : String) (w : World) : World × Bool :=
  (w.emit (.stat src), env.stat src == some .permission)

/-- Source `MkDir` (log.go 227-234): `os.MkdirAll(src, os.ModePerm)`. -/
def MkDir (env : Env) (src : String) (w : World) : World × Option String :=
  match env.mkdirAll src ModePerm with
  | some err => (w.emit (.mkdirAll src ModePerm false), some err)
  | none => (w.emit (.mkdirAll src ModePerm true), none)

/-- Source `IsNotExistMkDir` (log.go 217-225): creates the directory when
`CheckNotExist` holds. -/
def IsNotExistMkDir (env : Env) (src : String) (w : World) : World × Option String :=
  match CheckNotExist env src w with
  | (w1, true) =>
    match MkDir env src w1 with
    | (w2, some err) => (w2, some err)
    | (w2, none) => (w2, none)
  | (w1, false) => (w1, none)

/-- Source `Open` (log.go 236-243): `os.OpenFile`; a successful open creates a
new file object, whose handle is the next free index. -/
def Open (env : Env) (name : String) (flag perm : Nat) (w : World) : World × Except String Nat :=
  match env.openFile name flag perm with
  | some err => (w.emit (.openFile name flag perm none), .error err)
  | none =>
    let h := w.files.length
    ({ w with files := w.files ++ [{ name := name, closed := false }],
              trace := w.trace ++ [.openFile name flag perm (some h)] }, .ok h)

/-- Source `MustOpen` (log.go 245-261). -/
def MustOpen (env : Env) (fileName filePath : String) (w : World) : World × Except String Nat :=
  match CheckPermission env filePath w with
  | (w1, true) => (w1, .error ("permission denied: " ++ filePath))
  | (w1, false) =>
    match IsNotExistMkDir env filePath w1 with
    | (w2, some err) => (w2, .error ("mkdir err: " ++ filePath ++ ", " ++ err))
    | (w2, none) =>
      match Open env (filePath ++ "/" ++ fileName) (O_APPEND ||| O_CREATE ||| O_RDWR) 0o644 w2 with
      | (w3, .error err) => (w3, .error ("fail to open file: " ++ err))
      | (w3, .ok f) => (w3, .ok f)

/-! ## Logger core -/

/-- Message of the runtime panic raised by a nil pointer dereference. -/
def nilDeref : String := "invalid memory address or nil pointer dereference"

/-- Message of the runtime panic raised by an out-of-range index. -/
def indexOutOfRange : String := "index out of range"

/-- Source `getLogFileName` (log.go 93-95): `Sprintf("%s-%s.log", prefix, day)`. -/
def logr.getLogFileName (env : Env) (l : logr) : String :=
  l.config.FileNamePrefix ++ "-" ++ dayFormat env.now ++ ".log"

/-- The call `log.New(out, "", log.LstdFlags)`. -/
def Logger.New (out : Nat) : Logger := { out := out, linePrefix := "" }

/-- The action of `(*os.File).Write` of `data` on handle `h`, given the file
objects: the data is written when the object is open, the call is refused when
it is closed (or the handle names no object). -/
def writeEvent (files : List OsFile) (h : Nat) (data : String) : Event :=
  match files[h]? with
  | some f => if f.closed then .writeRefused h data else .write h data
  | none => .writeRefused h data

/-- The method `(*os.File).Write`; its error is dropped by the logger's
callers. -/
def writeFile (h : Nat) (data : String) (w : World) : World :=
  w.emit (writeEvent w.files h data)

/-- The method `(*log.Logger).Output` for flags `log.LstdFlags`: one `Write` on
the output handle of prefix, date and time, the text, and a newline when the
text does not end in one. -/
def Logger.Output (lg : Logger) (env : Env) (s : String) (w : World) : World :=
  let nl := if s.data.getLast? = some '\n' then "" else "\n"
  writeFile lg.out (lg.linePrefix ++ stdHeader env.now ++ s ++ nl) w

/-- Stores a new value in the object `Logrer` points to. -/
def World.setLogrer (w : World) (l : logr) : World := { w with Logrer := some l }

/-- The method `(*os.File).Close`. -/
def closeFile (h : Nat) (w : World) : World :=
  { w with
    files := match w.files[h]? with
      | some f => w.files.set h { f with closed := true }
      | none => w.files,
    trace := w.trace ++ [.close h] }

/-- Source `Setup` (log.go 46-73): the body runs under `setuponce.Do`, so only
while the guard is unspent; the returned error is that of `MustOpen`. -/
def Setup (env : Env) (lc : Config) (w : World) : World × Option String :=
  if w.setuponce then (w, none)
  else
    let w0 := { w with setuponce := true }
    let lc1 := if lc.FilePath = "" then { lc with FilePath := "runtime/logs" } else lc
    let lc2 := if lc1.FileNamePrefix = "" then { lc1 with FileNamePrefix := "log" } else lc1
    let lc3 := if lc2.Encoding = "" then { lc2 with Encoding := "plain" } else lc2
    let l : logr := { config := lc3, logFile := none, logger := none }
    let w1 := w0.setLogrer l
    match MustOpen env (l.getLogFileName env) lc3.FilePath w1 with
    | (w2, .ok f) =>
      let l1 := { l with logFile := some f }
      (w2.setLogrer { l1 with logger := some (Logger.New f) }, none)
    | (w2, .error e) => (w2, some e)

/-- Source `setLogFile` (log.go 75-91), called on `Logrer`: a nil `Logrer` or
`logFile` panics at the dereference; a failed reopening is printed by the
standard logger and the method returns with the closed handle in place. -/
def setLogFile (env : Env) (w : World) : World × Ctl :=
  match w.Logrer with
  | none => (w, .panic nilDeref)
  | some l =>
    let temp := l.getLogFileName env
    match l.logFile.bind (fun h => w.files[h]?.map (fun f => (h, f))) with
    | none => (w, .panic nilDeref)
    | some (h, f) =>
      if l.config.FilePath ++ "/" ++ temp ≠ f.name then
        let w1 := closeFile h w
        match MustOpen env temp l.config.FilePath w1 with
        | (w2, .error err) => (w2.emit (.stderr (stdHeader env.now ++ err ++ "\n")), .ret)
        | (w2, .ok f1) =>
          let l1 := { l with logFile := some f1 }
          match l1.logger with
          | none => (w2.setLogrer l1, .panic nilDeref)
          | some lg => ((w2.setLogrer { l1 with logger := some { lg with out := f1 } }).emit
              (.setOutput f1), .ret)
      else (w, .ret)

/-- Source `setLinePrefix` (log.go 97-107), called on `Logrer`: the tag lookup
panics on an index out of range, the `SetPrefix` on a nil logger. -/
def setLinePrefix (env : Env) (level : Level) (w : World) : World × Ctl :=
  match (if 0 ≤ level then levelFlags[level.toNat]? else none) with
  | none => (w, .panic indexOutOfRange)
  | some tag =>
    let linePrefix := match env.caller DefaultCallerDepth with
      | some (f, line) => tag ++ "|" ++ filepath.Base f ++ ":" ++ toString line ++ "|"
      | none => tag ++ "|"
    match w.Logrer with
    | none => (w, .panic nilDeref)
    | some l =>
      match l.logger with
      | none => (w, .panic nilDeref)
      | some lg =>
        ((w.setLogrer { l with logger := some { lg with linePrefix := linePrefix } }).emit
          (.setPrefix linePrefix), .ret)

/-- Source `GetLogger` (log.go 109-111). -/
def logr.GetLogger (l : logr) : Option Logger := l.logger

/-- Source `Printf` (log.go 113-119), called on `Logrer`: without hook the
logger's `Printf` of `format + "\n"`; with a hook, the call
`l.config.PrintfFunc(l, format, v...)`. -/
def logr.Printf (env : Env) (format : String) (v : List Value) (w : World) : World × Ctl :=
  match w.Logrer with
  | none => (w, .panic nilDeref)
  | some l =>
    match l.config.PrintfFunc with
    | none =>
      match l.logger with
      | none => (w, .panic nilDeref)
      | some lg => (lg.Output env (env.sprintf (format ++ "\n") v) w, .ret)
    | some f => (w.emit (.hook f l format v), .ret)

/-- Source `SetPrintfFunc` (log.go 121-127); the error of the implicit `Setup`
is dropped. -/
def SetPrintfFunc (env : Env) (f : Option PrintfFunc) (w : World) : World :=
  match w.Logrer with
  | none => (Setup env { PrintfFunc := f } w).1
  | some l => w.setLogrer { l with config := { l.config with PrintfFunc := f } }

/-- The method `(*log.Logger).Println`: `Output` of `fmt.Sprintln(v...)`. -/
def Logger.Println (lg : Logger) (env : Env) (v : List Value) (w : World) : World :=
  lg.Output env (Sprintln v) w

/-- The method `(*log.Logger).Printf`: `Output` of `fmt.Sprintf(format, v...)`. -/
def Logger.Printf (lg : Logger) (env : Env) (format : String) (v : List Value) (w : World) :
    World :=
  lg.Output env (env.sprintf format v) w

/-- The method `(*log.Logger).Fatalln`: `Println` followed by `os.Exit(1)`. -/
def Logger.Fatalln (lg : Logger) (env : Env) (v : List Value) (w : World) : World :=
  (lg.Output env (Sprintln v) w).emit (.exit 1)

/-- The method `(*log.Logger).Fatalf`: `Printf` followed by `os.Exit(1)`. -/
def Logger.Fatalf (lg : Logger) (env : Env) (format : String) (v : List Value) (w : World) :
    World :=
  (lg.Output env (env.sprintf format v) w).emit (.exit 1)

/-- Source `write` (log.go 129-145): implicit `Setup(Config{})` when `Logrer` is
nil, then `setLinePrefix`, `setLogFile`, and the switch on the level. -/
def write (env : Env) (level : Level) (v : List Value) (w : World) : World × Ctl :=
  let w0 := match w.Logrer with
    | none => (Setup env {} w).1
    | some _ => w
  match setLinePrefix env level w0 with
  | (w1, .ret) =>
    match setLogFile env w1 with
    | (w2, .ret) =>
      match w2.Logrer.bind (fun l => l.logger) with
      | none => (w2, .panic nilDeref)
      | some lg =>
        if level = DEBUG ∨ level = INFO ∨ level = WARN ∨ level = ERROR then
          (lg.Println env v w2, .ret)
        else if level = FATAL then
          (lg.Fatalln env v w2, .exit 1)
        else
          (lg.Println env v w2, .ret)
    | (w2, c) => (w2, c)
  | (w1, c) => (w1, c)

/-- Source `writef` (log.go 147-163): as `write`, with `Printf`/`Fatalf` of
`format + "\n"`. -/
def writef (env : Env) (level : Level) (format : String) (v : List Value) (w : World) :
    World × Ctl :=
  let w0 := match w.Logrer with
    | none => (Setup env {} w).1
    | some _ => w
  match setLinePrefix env level w0 with
  | (w1, .ret) =>
    match setLogFile env w1 with
    | (w2, .ret) =>
      match w2.Logrer.bind (fun l => l.logger) with
      | none => (w2, .panic nilDeref)
      | some lg =>
        if level = DEBUG ∨ level = INFO ∨ level = WARN ∨ level = ERROR then
          (lg.Printf env (format ++ "\n") v w2, .ret)
        else if level = FATAL then
          (lg.Fatalf env (format ++ "\n") v w2, .exit 1)
        else
          (lg.Printf env (format ++ "\n") v w2, .ret)
    | (w2, c) => (w2, c)
  | (w1, c) => (w1, c)

/-! ## Public logging API -/

/-- Source `Debug`: `write` at level DEBUG. -/
def Debug (env : Env) (v : List Value) (w : World) : World × Ctl := write env DEBUG v w

/-- Source `Debugf`: `writef` at level DEBUG. -/
def Debugf (env : Env) (format : String) (v : List Value) (w : World) : World × Ctl :=
  writef env DEBUG format v w

/-- Source `Info`: `write` at level INFO. -/
def Info (env : Env) (v : List Value) (w : World) : World × Ctl := write env INFO v w

/-- Source `Infof`: `writef` at level INFO. -/
def Infof (env : Env) (format : String) (v : List Value) (w : World) : World × Ctl :=
  writef env INFO format v w

/-- Source `Warn`: `write` at level WARN. -/
def Warn (env : Env) (v : List Value) (w : World) : World × Ctl := write env WARN v w

/-- Source `Warnf`: `writef` at level WARN. -/
def Warnf (env : Env) (format : String) (v : List Value) (w : World) : World × Ctl :=
  writef env WARN format v w

/-- Source `Error`: `write` at level ERROR. -/
def Error (env : Env) (v : List Value) (w : World) : World × Ctl := write env ERROR v w

/-- Source `Errorf`: `writef` at level ERROR. -/
def Errorf (env : Env) (format : String) (v : List Value) (w : World) : World × Ctl :=
  writef env ERROR format v w

/-- Source `Fatal`: `write` at level FATAL. -/
def Fatal (env : Env) (v : List Value) (w : World) : World × Ctl := write env FATAL v w

/-- Source `Fatalf`: `writef` at level FATAL. -/
def Fatalf (env : Env) (format : String) (v : List Value) (w : World) : World × Ctl :=
  writef env FATAL format v w

/-! ## Programs using the package -/

/-- The ten level functions. -/
inductive LevelFn where
  | Debug | Debugf | Info | Infof | Warn | Warnf | Error | Errorf | Fatal | Fatalf
deriving DecidableEq, Repr

/-- The level a level function passes on. -/
def LevelFn.level : LevelFn → Level
  | .Debug | .Debugf => DEBUG
  | .Info | .Infof => INFO
  | .Warn | .Warnf => WARN
  | .Error | .Errorf => ERROR
  | .Fatal | .Fatalf => FATAL

/-- Calls a level function; the plain variants ignore `format`. -/
def LevelFn.call (fn : LevelFn) (env : Env) (format : String) (v : List Value) (w : World) :
    World × Ctl :=
  match fn with
  | .Debug => Logr.Debug env v w
  | .Debugf => Logr.Debugf env format v w
  | .Info => Logr.Info env v w
  | .Infof => Logr.Infof env format v w
  | .Warn => Logr.Warn env v w
  | .Warnf => Logr.Warnf env format v w
  | .Error => Logr.Error env v w
  | .Errorf => Logr.Errorf env format v w
  | .Fatal => Logr.Fatal env v w
  | .Fatalf => Logr.Fatalf env format v w

/-- One call of the exported API by the host program. -/
inductive Op where
  | Setup (lc : Config)
  | SetPrintfFunc (f : Option PrintfFunc)
  | Level (fn : LevelFn) (format : String) (v : List Value)
deriving DecidableEq, Repr

/-- What the host program observes of a call: the error returned by `Setup`,
or how the call ended. -/
inductive Res where
  | setup (err : Option String)
  | done (c : Ctl)
deriving DecidableEq, Repr

/-- Runs one API call and reports what the host observes. -/
def step (env : Env) (op : Op) (w : World) : World × Res :=
  match op with
  | .Setup lc => let r := Setup env lc w; (r.1, .setup r.2)
  | .SetPrintfFunc f => (SetPrintfFunc env f w, .done .ret)
  | .Level fn format v => let r := fn.call env format v w; (r.1, .done r.2)

/-- One executed call of a run: the answers of the system, the call, what the
host observed, and the process state the call left. -/
structure Entry where
  env : Env
  op : Op
  res : Res
  world : World

/-- Runs a sequence of API calls, each under its own answers of the system.
Nothing runs after a call that exits the process.  A panicking call is
abandoned and the program goes on (as when the host recovers from it), so the
runs of a host that dies of the panic are prefixes of these. -/
def exec : List (Env × Op) → World → List Entry
  | [], _ => []
  | (env, op) :: rest, w =>
    match step env op w with
    | (w1, .done (.exit c)) => [{ env := env, op := op, res := .done (.exit c), world := w1 }]
    | (w1, r) => { env := env, op := op, res := r, world := w1 } :: exec rest w1

/-! ## Vocabulary of the specification -/

/-- The text `s` begins with the text `p`. -/
def startsWith (p s : String) : Prop := p.data <+: s.data

/-- The four ways `MustOpen` can end. -/
inductive MustOpenOutcome where
  | permissionDenied
  | mkdirFailed
  | openFailed
  | opened
deriving DecidableEq, Repr

/-- Reads the way `MustOpen` ended off its result. -/
def outcomeIs : MustOpenOutcome → Except String Nat → Prop
  | .permissionDenied, .error m => startsWith "permission denied: " m
  | .mkdirFailed, .error m => startsWith "mkdir err: " m
  | .openFailed, .error m => startsWith "fail to open file: " m
  | .opened, .ok _ => True
  | _, _ => False

/-- The actions of the two `os.Stat` calls on the directory, followed by a
successful `os.MkdirAll` when the directory was reported missing. -/
def dirEvents (env : Env) (filePath : String) : List Event :=
  if env.stat filePath = some .notExist then
    [.stat filePath, .stat filePath, .mkdirAll filePath ModePerm true]
  else [.stat filePath, .stat filePath]

/-- The system lets `MustOpen` open `fileName` under `filePath`: the stat is not
refused, a missing directory can be created, and the open succeeds. -/
def opens (env : Env) (fileName filePath : String) : Prop :=
  env.stat filePath ≠ some .permission ∧
  (env.stat filePath = some .notExist → env.mkdirAll filePath ModePerm = none) ∧
  env.openFile (filePath ++ "/" ++ fileName) (O_APPEND ||| O_CREATE ||| O_RDWR) 0o644 = none

/-- Value of a string of decimal digits. -/
def atoi (cs : List Char) : Nat := cs.foldl (fun n c => n * 10 + (c.toNat - 48)) 0

/-- The line prefix `setLinePrefix` builds from a level tag. -/
def linePrefixFor (env : Env) (tag : String) : String :=
  match env.caller DefaultCallerDepth with
  | some (f, line) => tag ++ "|" ++ filepath.Base f ++ ":" ++ toString line ++ "|"
  | none => tag ++ "|"

/-- The level is one of the five declared constants. -/
def Level.declared (level : Level) : Prop :=
  level = DEBUG ∨ level = INFO ∨ level = WARN ∨ level = ERROR ∨ level = FATAL

/-- The text a level function hands to the logger: `Sprintln` of the values for
the plain variants, `Sprintf` of the format and a newline for the others. -/
def LevelFn.text (fn : LevelFn) (env : Env) (format : String) (v : List Value) : String :=
  match fn with
  | .Debug | .Info | .Warn | .Error | .Fatal => Sprintln v
  | .Debugf | .Infof | .Warnf | .Errorf | .Fatalf => env.sprintf (format ++ "\n") v

/-- The switch on the level at the end of `write` and `writef`, from the
formatted text on: the line is written; FATAL then exits with status 1. -/
def emitLine (env : Env) (level : Level) (s : String) (w : World) : World × Ctl :=
  match w.Logrer with
  | none => (w, .panic nilDeref)
  | some l =>
    match l.logger with
    | none => (w, .panic nilDeref)
    | some lg =>
      if level = DEBUG ∨ level = INFO ∨ level = WARN ∨ level = ERROR then
        (lg.Output env s w, .ret)
      else if level = FATAL then
        ((lg.Output env s w).emit (.exit 1), .exit 1)
      else
        (lg.Output env s w, .ret)

/-- Common body of `write` and `writef`, from the formatted text on. -/
def logCore (env : Env) (level : Level) (s : String) (w : World) : World × Ctl :=
  let w0 := match w.Logrer with
    | none => (Setup env {} w).1
    | some _ => w
  match setLinePrefix env level w0 with
  | (w1, .ret) =>
    match setLogFile env w1 with
    | (w2, .ret) => emitLine env level s w2
    | (w2, c) => (w2, c)
  | (w1, c) => (w1, c)

/-- The singleton exists with a bound logger and a log file object. -/
def Initialised (w : World) : Prop :=
  ∃ l h lg f, w.Logrer = some l ∧ l.logFile = some h ∧ l.logger = some lg ∧
    w.files[h]? = some f

/-- The singleton writes to the open file of day `t` under directory `D` with
name prefix `P`: its log file and its logger's output are one open handle
whose path is `D/P-YYYYMMDD.log`. -/
def SinkAt (D P : String) (t : Time) (w : World) : Prop :=
  ∃ l h lg, w.Logrer = some l ∧ l.config.FilePath = D ∧ l.config.FileNamePrefix = P ∧
    l.logFile = some h ∧ l.logger = some lg ∧ lg.out = h ∧
    w.files[h]? = some { name := D ++ "/" ++ (P ++ "-" ++ dayFormat t ++ ".log"),
                         closed := false }

/-- The singleton left by a failed first `Setup`: a configuration, no file, no
logger, and the once-guard spent. -/
def Dead (w : World) : Prop :=
  w.setuponce = true ∧ ∃ l, w.Logrer = some l ∧ l.logFile = none ∧ l.logger = none

/-- The lines written to files among some actions. -/
def writes (es : List Event) : List Event :=
  es.filter (fun e => match e with | .write _ _ => true | _ => false)

/-- The print-hook calls among some actions. -/
def hookCalls (es : List Event) : List Event :=
  es.filter (fun e => match e with | .hook _ _ _ _ => true | _ => false)

/-- The failed reopenings reported on the standard error stream. -/
def reopenFailures (es : List Event) : List Event :=
  es.filter (fun e => match e with | .stderr _ => true | _ => false)

/-- The configuration `Setup` stores: each empty text field replaced by its
default, the rest unchanged. -/
def storedConfig (c : Config) : Config :=
  { FilePath := if c.FilePath = "" then "runtime/logs" else c.FilePath,
    Encoding := if c.Encoding = "" then "plain" else c.Encoding,
    FileNamePrefix := if c.FileNamePrefix = "" then "log" else c.FileNamePrefix,
    PrintfFunc := c.PrintfFunc }

/-- Name of the log file of day `t` for a configuration. -/
def fileNameAt (c : Config) (t : Time) : String :=
  c.FileNamePrefix ++ "-" ++ dayFormat t ++ ".log"

/-- Path of the log file of day `t` for a configuration. -/
def pathAt (c : Config) (t : Time) : String := c.FilePath ++ "/" ++ fileNameAt c t

/-- Flags `MustOpen` opens the log file with. -/
def openFlags : Nat := O_APPEND ||| O_CREATE ||| O_RDWR

/-- The line a logger with line prefix `p` writes for the text `s`. -/
def lineOf (p : String) (env : Env) (s : String) : String :=
  p ++ stdHeader env.now ++ s ++ (if s.data.getLast? = some '\n' then "" else "\n")

/-- The exit action that follows the line of a FATAL call. -/
def exitEvents (level : Level) : List Event := if level = FATAL then [.exit 1] else []

/-- How a call at the given level ends once the line is written. -/
def ctlOf (level : Level) : Ctl := if level = FATAL then .exit 1 else .ret

/-- Tag of a level in the table `levelFlags`; `none` is an index out of range. -/
def tagOf (level : Level) : Option String :=
  if 0 ≤ level then levelFlags[level.toNat]? else none

/-- Actions of the path utilities: stat, directory creation, open. -/
def Event.isFs : Event → Bool
  | .stat _ | .mkdirAll _ _ _ | .openFile _ _ _ _ => true
  | _ => false

/-- Only actions of the path utilities. -/
def fsOnly (es : List Event) : Prop := ∀ e ∈ es, e.isFs = true

/-- The call exited the process. -/
def Res.isExit : Res → Bool
  | .done (.exit _) => true
  | _ => false

/-- What the host observes of a call on the singleton left by a failed first
`Setup`: `Setup` returns nil, `SetPrintfFunc` returns, a level function panics
on the nil logger. -/
def deadRes : Op → Res
  | .Setup _ => .setup none
  | .SetPrintfFunc _ => .done .ret
  | .Level _ _ _ => .done (.panic nilDeref)

/-- The same process with another print hook (or none) configured on the
singleton; a process without singleton is left as it is. -/
def World.withHook (w : World) (g : Option PrintfFunc) : World :=
  match w.Logrer with
  | none => w
  | some l => w.setLogrer { l with config := { l.config with PrintfFunc := g } }

/-! ## Sample systems -/

/-- A system on 4 November 2026 in which no directory exists yet and every
creation succeeds; the frame three levels above `setLinePrefix` is line 6 of
`log_test.go`. -/
def envFresh : Env :=
  { now := { year := 2026, month := 11, day := 4, hour := 9, minute := 5, second := 7 },
    stat := fun _ => some .notExist,
    mkdirAll := fun _ _ => none,
    openFile := fun _ _ _ => none,
    caller := fun skip => if skip = 3 then some ("/home/rao/logr/log_test.go", 6) else none,
    sprintf := fun format _ => format }

/-- The same system later that day, the directories now existing. -/
def envSameDay : Env :=
  { envFresh with
    now := { year := 2026, month := 11, day := 4, hour := 17, minute := 30, second := 0 },
    stat := fun _ => none }

/-- The next day, everything existing and writable. -/
def envNextDay : Env :=
  { envFresh with
    now := { year := 2026, month := 11, day := 5, hour := 0, minute := 0, second := 1 },
    stat := fun _ => none }

/-- A system whose directories can be inspected but not written to. -/
def envReadOnly : Env :=
  { envNextDay with openFile := fun _ _ _ => some "permission denied" }

/-- The values logged by the package's tests. -/
def testValues : List Value := [.int 12, .str "rao", .strs ["q", "w", "e"]]

/-- The configuration of `TestSetup`. -/
def testConfig : Config := { FilePath := "runtime/consoles", FileNamePrefix := "console" }

/-- The process after the `Setup` call of `TestSetup` on the fresh system. -/
def worldAfterSetup : World := (Setup envFresh testConfig World.init).1

/-- The process after a `Setup` whose configuration carries print hook 7. -/
def worldWithHook : World :=
  (Setup envFresh { testConfig with PrintfFunc := some 7 } World.init).1

/-- The process after `Setup` and a later `SetPrintfFunc` of print hook 7. -/
def worldHookLater : World := SetPrintfFunc envSameDay (some 7) worldAfterSetup

/-- The process after a first `Setup` that failed on the read-only system. -/
def worldFailedSetup : World := (Setup envReadOnly testConfig World.init).1


/-! ## Texts -/

theorem startsWith_append (p s : String) : startsWith p (p ++ s) := by
  unfold startsWith
  rw [String.data_append]
  exact List.prefix_append _ _

theorem permission_outcome (x : String) (o : MustOpenOutcome) :
    outcomeIs o (.error ("permission denied: " ++ x)) ↔ o = .permissionDenied := by
  cases o <;> simp [outcomeIs, startsWith, String.data_append, String.append_assoc]

theorem mkdir_outcome (x y : String) (o : MustOpenOutcome) :
    outcomeIs o (.error ("mkdir err: " ++ x ++ ", " ++ y)) ↔ o = .mkdirFailed := by
  cases o <;> simp [outcomeIs, startsWith, String.data_append, String.append_assoc]

theorem openFailed_outcome (x : String) (o : MustOpenOutcome) :
    outcomeIs o (.error ("fail to open file: " ++ x)) ↔ o = .openFailed := by
  cases o <;> simp [outcomeIs, startsWith, String.data_append, String.append_assoc]

theorem opened_outcome (h : Nat) (o : MustOpenOutcome) :
    outcomeIs o (.ok h) ↔ o = .opened := by
  cases o <;> simp [outcomeIs]

theorem messages_distinct (a b c d : String) :
    "permission denied: " ++ a ≠ "mkdir err: " ++ b ++ ", " ++ c ∧
    "permission denied: " ++ a ≠ "fail to open file: " ++ d ∧
    "mkdir err: " ++ b ++ ", " ++ c ≠ "fail to open file: " ++ d := by
  refine ⟨?_, ?_, ?_⟩ <;> intro h <;> have := congrArg String.data h <;>
    simp [String.data_append] at this

/-! ## `MustOpen` by cases -/

theorem stat_beq_false {env : Env} {p : String} {k : StatErr} (h : env.stat p ≠ some k) :
    (env.stat p == some k) = false := by
  simpa using h

theorem stat_beq_true {env : Env} {p : String} {k : StatErr} (h : env.stat p = some k) :
    (env.stat p == some k) = true := by
  simpa using h

theorem notExist_beq_permission : (StatErr.notExist == StatErr.permission) = false := by decide

theorem MustOpen_permission (env : Env) (fileName filePath : String) (w : World)
    (h : env.stat filePath = some .permission) :
    MustOpen env fileName filePath w
      = (w.emit (.stat filePath), .error ("permission denied: " ++ filePath)) := by
  simp [MustOpen, CheckPermission, stat_beq_true h]

theorem MustOpen_mkdirErr (env : Env) (fileName filePath : String) (w : World) (e : String)
    (h : env.stat filePath = some .notExist) (hm : env.mkdirAll filePath ModePerm = some e) :
    MustOpen env fileName filePath w
      = ({ w with trace := w.trace ++
              [.stat filePath, .stat filePath, .mkdirAll filePath ModePerm false] },
          .error ("mkdir err: " ++ filePath ++ ", " ++ e)) := by
  have hp : env.stat filePath ≠ some .permission := by rw [h]; decide
  simp [MustOpen, CheckPermission, IsNotExistMkDir, CheckNotExist, MkDir, stat_beq_true h,
    stat_beq_false hp, hm, World.emit]

theorem MustOpen_openErr (env : Env) (fileName filePath : String) (w : World) (e : String)
    (hp : env.stat filePath ≠ some .permission)
    (hm : env.stat filePath = some .notExist → env.mkdirAll filePath ModePerm = none)
    (ho : env.openFile (filePath ++ "/" ++ fileName) (O_APPEND ||| O_CREATE ||| O_RDWR) 0o644
      = some e) :
    MustOpen env fileName filePath w
      = ({ w with trace := w.trace ++ dirEvents env filePath ++
              [.openFile (filePath ++ "/" ++ fileName) (O_APPEND ||| O_CREATE ||| O_RDWR) 0o644
                none] },
          .error ("fail to open file: " ++ e)) := by
  by_cases hn : env.stat filePath = some .notExist
  · simp [MustOpen, CheckPermission, IsNotExistMkDir, CheckNotExist, MkDir, Open, dirEvents,
      stat_beq_true hn, stat_beq_false hp, hn, hm hn, ho, notExist_beq_permission, World.emit]
  · simp [MustOpen, CheckPermission, IsNotExistMkDir, CheckNotExist, MkDir, Open, dirEvents,
      stat_beq_false hn, stat_beq_false hp, hn, ho, World.emit]

theorem MustOpen_opens (env : Env) (fileName filePath : String) (w : World)
    (h : opens env fileName filePath) :
    MustOpen env fileName filePath w
      = ({ w with
            files := w.files ++ [{ name := filePath ++ "/" ++ fileName, closed := false }],
            trace := w.trace ++ dirEvents env filePath ++
              [.openFile (filePath ++ "/" ++ fileName) (O_APPEND ||| O_CREATE ||| O_RDWR) 0o644
                (some w.files.length)] },
          .ok w.files.length) := by
  obtain ⟨hp, hm, ho⟩ := h
  by_cases hn : env.stat filePath = some .notExist
  · simp [MustOpen, CheckPermission, IsNotExistMkDir, CheckNotExist, MkDir, Open, dirEvents,
      stat_beq_true hn, stat_beq_false hp, hn, hm hn, ho, notExist_beq_permission, World.emit]
  · simp [MustOpen, CheckPermission, IsNotExistMkDir, CheckNotExist, MkDir, Open, dirEvents,
      stat_beq_false hn, stat_beq_false hp, hn, ho, World.emit]

theorem fsOnly_dirEvents (env : Env) (filePath : String) : fsOnly (dirEvents env filePath) := by
  unfold dirEvents fsOnly
  split <;> simp [Event.isFs]

theorem fsOnly_dirEvents_open (env : Env) (filePath : String) (e : Event)
    (he : e.isFs = true) : fsOnly (dirEvents env filePath ++ [e]) := by
  intro x hx
  rcases List.mem_append.1 hx with h | h
  · exact fsOnly_dirEvents env filePath x h
  · simp at h; subst h; exact he

/-- Whether `MustOpen` succeeds depends on the answers of the system only. -/
theorem MustOpen_cases (env : Env) (fileName filePath : String) :
    opens env fileName filePath ∨
    ∃ e evs, fsOnly evs ∧ ∀ w, MustOpen env fileName filePath w
      = ({ w with trace := w.trace ++ evs }, .error e) := by
  by_cases hp : env.stat filePath = some .permission
  · right
    exact ⟨_, [.stat filePath], by simp [fsOnly, Event.isFs],
      fun w => by rw [MustOpen_permission env _ _ w hp]; rfl⟩
  · by_cases hm : env.stat filePath = some .notExist → env.mkdirAll filePath ModePerm = none
    · cases ho : env.openFile (filePath ++ "/" ++ fileName) (O_APPEND ||| O_CREATE ||| O_RDWR)
          0o644 with
      | none => exact Or.inl ⟨hp, hm, ho⟩
      | some e =>
        right
        exact ⟨_, dirEvents env filePath ++ [.openFile (filePath ++ "/" ++ fileName)
            (O_APPEND ||| O_CREATE ||| O_RDWR) 0o644 none],
          fsOnly_dirEvents_open env filePath (.openFile (filePath ++ "/" ++ fileName)
            (O_APPEND ||| O_CREATE ||| O_RDWR) 0o644 none) rfl, fun w => by
            rw [MustOpen_openErr env _ _ w e hp hm ho, List.append_assoc]⟩
    · right
      have hn : env.stat filePath = some .notExist := by
        by_contra hc; exact hm (fun h => absurd h hc)
      cases hmk : env.mkdirAll filePath ModePerm with
      | none => exact absurd (fun _ => hmk) hm
      | some e => exact ⟨_, _, by simp [fsOnly, Event.isFs],
          fun w => MustOpen_mkdirErr env _ _ w e hn hmk⟩

theorem MustOpen_ok_iff (env : Env) (fileName filePath : String) (w : World) :
    (∃ h, (MustOpen env fileName filePath w).2 = .ok h) ↔ opens env fileName filePath := by
  constructor
  · rintro ⟨h, hh⟩
    rcases MustOpen_cases env fileName filePath with ho | ⟨e, evs, _, he⟩
    · exact ho
    · rw [he w] at hh; cases hh
  · intro ho
    exact ⟨_, by rw [MustOpen_opens env _ _ w ho]⟩


theorem digitChar_val (d : Nat) : (digitChar d).toNat - 48 = d % 10 := by
  have h : ∀ k, k < 10 → (Char.ofNat (48 + k)).toNat - 48 = k := by decide
  exact h (d % 10) (Nat.mod_lt _ (by decide))

theorem itoaLoop_foldl (fuel : Nat) : ∀ (i wid : Nat) (acc : List Char), i ≤ fuel →
    (itoaLoop fuel i wid acc).foldl (fun n c => n * 10 + (c.toNat - 48)) 0
      = acc.foldl (fun n c => n * 10 + (c.toNat - 48)) i := by
  induction fuel with
  | zero =>
    intro i wid acc hi
    have : i = 0 := by omega
    subst this
    simp [itoaLoop, digitChar_val]
  | succ fuel ih =>
    intro i wid acc hi
    unfold itoaLoop
    split
    · rw [ih (i / 10) (wid - 1) _ (by omega)]
      simp only [List.foldl_cons, digitChar_val]
      congr 1
      omega
    · rename_i hc
      have : i < 10 := by omega
      simp only [List.foldl_cons, digitChar_val]
      congr 1
      omega

theorem atoi_itoa (i wid : Nat) : atoi (itoa i wid).data = i := by
  unfold atoi itoa
  simpa using itoaLoop_foldl (i + wid) i wid [] (by omega)

theorem itoa_inj {a b w : Nat} (h : itoa a w = itoa b w) : a = b := by
  have := congrArg (fun s => atoi s.data) h
  simpa [atoi_itoa] using this

theorem itoa2_length : ∀ m, m ≤ 31 → (itoa m 2).data.length = 2 := by decide

theorem dayFormat_inj {a b : Time} (ha : a.validDate) (hb : b.validDate)
    (h : dayFormat a = dayFormat b) : a.sameDate b := by
  obtain ⟨_, ha1, _, ha2⟩ := ha
  obtain ⟨_, hb1, _, hb2⟩ := hb
  have hd := congrArg String.data h
  simp only [dayFormat, String.data_append] at hd
  have l1 := itoa2_length a.month (by omega)
  have l2 := itoa2_length a.day (by omega)
  have l3 := itoa2_length b.month (by omega)
  have l4 := itoa2_length b.day (by omega)
  obtain ⟨h12, h3⟩ := List.append_inj' hd (by omega)
  obtain ⟨h1, h2⟩ := List.append_inj' h12 (by omega)
  exact ⟨itoa_inj (String.ext h1), itoa_inj (String.ext h2), itoa_inj (String.ext h3)⟩

theorem dayFormat_congr {a b : Time} (h : a.sameDate b) : dayFormat a = dayFormat b := by
  obtain ⟨h1, h2, h3⟩ := h
  simp [dayFormat, h1, h2, h3]

theorem path_inj {D P x y : String} (h : D ++ "/" ++ (P ++ "-" ++ x ++ ".log") = D ++ "/" ++ (P ++ "-" ++ y ++ ".log")) : x = y := by
  have hd := congrArg String.data h
  simp only [String.data_append, List.append_assoc] at hd
  have := List.append_cancel_left (List.append_cancel_left (List.append_cancel_left (List.append_cancel_left hd)))
  exact String.ext (List.append_cancel_right this)

/-! ## `Setup` by cases -/

theorem Setup_done (env : Env) (c : Config) (w : World) (h : w.setuponce = true) :
    Setup env c w = (w, none) := by
  simp [Setup, h]

theorem Setup_config (c : Config) :
    (if (if (if c.FilePath = "" then { c with FilePath := "runtime/logs" } else c).FileNamePrefix = ""
          then { (if c.FilePath = "" then { c with FilePath := "runtime/logs" } else c) with
                  FileNamePrefix := "log" }
          else (if c.FilePath = "" then { c with FilePath := "runtime/logs" } else c)).Encoding = ""
      then { (if (if c.FilePath = "" then { c with FilePath := "runtime/logs" } else c).FileNamePrefix = ""
          then { (if c.FilePath = "" then { c with FilePath := "runtime/logs" } else c) with
                  FileNamePrefix := "log" }
          else (if c.FilePath = "" then { c with FilePath := "runtime/logs" } else c)) with
              Encoding := "plain" }
      else (if (if c.FilePath = "" then { c with FilePath := "runtime/logs" } else c).FileNamePrefix = ""
          then { (if c.FilePath = "" then { c with FilePath := "runtime/logs" } else c) with
                  FileNamePrefix := "log" }
          else (if c.FilePath = "" then { c with FilePath := "runtime/logs" } else c)))
      = storedConfig c := by
  unfold storedConfig
  by_cases h1 : c.FilePath = "" <;> by_cases h2 : c.FileNamePrefix = "" <;>
    by_cases h3 : c.Encoding = "" <;> simp [h1, h2, h3]

theorem Setup_first (env : Env) (c : Config) (w : World) (h : w.setuponce = false) :
    Setup env c w =
      match MustOpen env (fileNameAt (storedConfig c) env.now) (storedConfig c).FilePath
          { w with setuponce := true,
                   Logrer := some { config := storedConfig c, logFile := none, logger := none } } with
      | (w2, .ok f) =>
        ({ w2 with Logrer := some { config := storedConfig c, logFile := some f,
                                    logger := some { out := f, linePrefix := "" } } }, none)
      | (w2, .error e) => (w2, some e) := by
  simp only [Setup, h, Bool.false_eq_true, if_false, Setup_config, World.setLogrer,
    logr.getLogFileName, fileNameAt, Logger.New]

theorem Setup_first_opens (env : Env) (c : Config) (w : World) (h : w.setuponce = false)
    (ho : opens env (fileNameAt (storedConfig c) env.now) (storedConfig c).FilePath) :
    Setup env c w =
      ({ Logrer := some { config := storedConfig c, logFile := some w.files.length,
                          logger := some { out := w.files.length, linePrefix := "" } },
         setuponce := true,
         files := w.files ++ [{ name := pathAt (storedConfig c) env.now, closed := false }],
         trace := w.trace ++ dirEvents env (storedConfig c).FilePath ++
           [.openFile (pathAt (storedConfig c) env.now) openFlags 0o644 (some w.files.length)] },
       none) := by
  rw [Setup_first env c w h, MustOpen_opens _ _ _ _ ho]
  rfl

theorem Setup_first_fails (env : Env) (c : Config) (w : World) (h : w.setuponce = false)
    (ho : ¬ opens env (fileNameAt (storedConfig c) env.now) (storedConfig c).FilePath) :
    ∃ e evs, Setup env c w =
      ({ Logrer := some { config := storedConfig c, logFile := none, logger := none },
         setuponce := true, files := w.files, trace := w.trace ++ evs }, some e) ∧
      (∀ w', MustOpen env (fileNameAt (storedConfig c) env.now) (storedConfig c).FilePath w'
        = ({ w' with trace := w'.trace ++ evs }, .error e)) ∧ fsOnly evs := by
  rcases MustOpen_cases env (fileNameAt (storedConfig c) env.now) (storedConfig c).FilePath with
    ho' | ⟨e, evs, hfs, he⟩
  · exact absurd ho' ho
  · refine ⟨e, evs, ?_, he, hfs⟩
    rw [Setup_first env c w h, he]

theorem Setup_ok_iff (env : Env) (c : Config) (w : World) (h : w.setuponce = false) :
    (Setup env c w).2 = none ↔
      opens env (fileNameAt (storedConfig c) env.now) (storedConfig c).FilePath := by
  constructor
  · intro hn
    by_contra ho
    obtain ⟨e, evs, he, _, _⟩ := Setup_first_fails env c w h ho
    rw [he] at hn
    cases hn
  · intro ho
    rw [Setup_first_opens env c w h ho]

/-! ## Claims about `MustOpen` and `Setup` -/

/-- C1 (idempotent Setup): when the first call `Setup(c1)` succeeds, the singleton
holds the configuration stored for `c1`, an open log file and a logger bound to
it, and a second call `Setup(c2)`, with any configuration and under any
answers of the system, returns no error and leaves the whole process state
as it was: same singleton, same files, no action added to the trace. -/
theorem Setup_idempotent (env1 env2 : Env) (c1 c2 : Config) (w : World)
    (hfirst : w.setuponce = false) (hok : (Setup env1 c1 w).2 = none) :
    Setup env2 c2 (Setup env1 c1 w).1 = ((Setup env1 c1 w).1, none) ∧
    ∃ l h, (Setup env1 c1 w).1.Logrer = some l ∧ l.config = storedConfig c1 ∧
      l.logFile = some h ∧ l.logger = some (Logger.New h) ∧
      (Setup env1 c1 w).1.files[h]? = some { name := pathAt (storedConfig c1) env1.now,
                                              closed := false } := by
  have ho := (Setup_ok_iff env1 c1 w hfirst).1 hok
  rw [Setup_first_opens env1 c1 w hfirst ho]
  refine ⟨Setup_done _ _ _ rfl, _, w.files.length, rfl, rfl, rfl, rfl, ?_⟩
  simp

theorem Setup_idempotent_witness :
    Setup envReadOnly {} (Setup envFresh testConfig World.init).1
      = ((Setup envFresh testConfig World.init).1, none) ∧
    ∃ l h, (Setup envFresh testConfig World.init).1.Logrer = some l ∧
      l.config = storedConfig testConfig ∧
      l.logFile = some h ∧ l.logger = some (Logger.New h) ∧
      (Setup envFresh testConfig World.init).1.files[h]?
        = some { name := pathAt (storedConfig testConfig) envFresh.now, closed := false } :=
  Setup_idempotent envFresh envReadOnly testConfig {} World.init rfl rfl

/-- C8 (Setup target path, defaults, directory creation): when the first
`Setup(c)` succeeds, the stored configuration is `c` with `runtime/logs`, `log`
and `plain` in place of an empty directory, name prefix and encoding; the
actions performed are the two stats of the directory, `MkdirAll` with full
permission when the directory was missing, and the opening in
append/create/read-write mode with permission 0644 of
`D/P-YYYYMMDD.log`; the log file and the output of the new logger (empty line
prefix) are that open file. -/
theorem Setup_target_path (env : Env) (c : Config) (w : World)
    (hfirst : w.setuponce = false) (hok : (Setup env c w).2 = none) :
    (Setup env c w).1 =
      { Logrer := some { config := storedConfig c, logFile := some w.files.length,
                         logger := some { out := w.files.length, linePrefix := "" } },
        setuponce := true,
        files := w.files ++ [{ name := pathAt (storedConfig c) env.now, closed := false }],
        trace := w.trace ++ dirEvents env (storedConfig c).FilePath ++
          [.openFile (pathAt (storedConfig c) env.now) (O_APPEND ||| O_CREATE ||| O_RDWR) 0o644
            (some w.files.length)] } ∧
    pathAt (storedConfig c) env.now
      = (if c.FilePath = "" then "runtime/logs" else c.FilePath) ++ "/" ++
        ((if c.FileNamePrefix = "" then "log" else c.FileNamePrefix) ++ "-" ++
          dayFormat env.now ++ ".log") ∧
    (storedConfig c).Encoding = (if c.Encoding = "" then "plain" else c.Encoding) ∧
    (storedConfig c).PrintfFunc = c.PrintfFunc ∧
    (env.stat (storedConfig c).FilePath = some .notExist →
      dirEvents env (storedConfig c).FilePath =
        [.stat (storedConfig c).FilePath, .stat (storedConfig c).FilePath,
         .mkdirAll (storedConfig c).FilePath 0o777 true]) ∧
    (c = { FilePath := "runtime/consoles", FileNamePrefix := "console" } →
      pathAt (storedConfig c) env.now
        = "runtime/consoles/console-" ++ dayFormat env.now ++ ".log") := by
  have ho := (Setup_ok_iff env c w hfirst).1 hok
  rw [Setup_first_opens env c w hfirst ho]
  refine ⟨rfl, rfl, rfl, rfl, ?_, ?_⟩
  · intro hn
    simp [dirEvents, hn, ModePerm]
  · intro hc
    subst hc
    apply String.ext
    simp [pathAt, fileNameAt, storedConfig, String.data_append]

theorem Setup_target_path_witness :
    (Setup envFresh testConfig World.init).1 =
      { Logrer := some { config := { FilePath := "runtime/consoles", Encoding := "plain",
                                     FileNamePrefix := "console", PrintfFunc := none },
                         logFile := some 0, logger := some { out := 0, linePrefix := "" } },
        setuponce := true,
        files := [{ name := "runtime/consoles/console-20261104.log", closed := false }],
        trace := [.stat "runtime/consoles", .stat "runtime/consoles",
          .mkdirAll "runtime/consoles" 0o777 true,
          .openFile "runtime/consoles/console-20261104.log" 0x442 0o644 (some 0)] } :=
  (Setup_target_path envFresh testConfig World.init rfl rfl).1

/-- C5 (failure ordering of MustOpen): (1) when the stat of the directory is
refused for permission, the result is the error `permission denied: <dir>` and
the only action is that stat; (2) otherwise, when the directory is missing and
`MkdirAll` fails, the result is `mkdir err: <dir>, <error>` and no open is
attempted; (3) otherwise, when the open of `<dir>/<file>` in
append/create/read-write mode with permission 0644 fails, the result is
`fail to open file: <error>` and no file object is created; (4) otherwise the
result is the new open handle.  The three messages are pairwise distinct, and
the result shows exactly one of the four outcomes. -/
theorem MustOpen_failure_ordering (env : Env) (fileName filePath : String) (w : World) :
    (env.stat filePath = some .permission →
      MustOpen env fileName filePath w
        = ({ w with trace := w.trace ++ [.stat filePath] },
            .error ("permission denied: " ++ filePath))) ∧
    (env.stat filePath ≠ some .permission → env.stat filePath = some .notExist →
      ∀ e, env.mkdirAll filePath 0o777 = some e →
      MustOpen env fileName filePath w
        = ({ w with trace := w.trace ++
              [.stat filePath, .stat filePath, .mkdirAll filePath 0o777 false] },
            .error ("mkdir err: " ++ filePath ++ ", " ++ e))) ∧
    (env.stat filePath ≠ some .permission →
      (env.stat filePath = some .notExist → env.mkdirAll filePath 0o777 = none) →
      ∀ e, env.openFile (filePath ++ "/" ++ fileName) (O_APPEND ||| O_CREATE ||| O_RDWR) 0o644
        = some e →
      MustOpen env fileName filePath w
        = ({ w with trace := w.trace ++ dirEvents env filePath ++
              [.openFile (filePath ++ "/" ++ fileName) (O_APPEND ||| O_CREATE ||| O_RDWR) 0o644
                none] },
            .error ("fail to open file: " ++ e))) ∧
    (env.stat filePath ≠ some .permission →
      (env.stat filePath = some .notExist → env.mkdirAll filePath 0o777 = none) →
      env.openFile (filePath ++ "/" ++ fileName) (O_APPEND ||| O_CREATE ||| O_RDWR) 0o644
        = none →
      MustOpen env fileName filePath w
        = ({ w with
              files := w.files ++ [{ name := filePath ++ "/" ++ fileName, closed := false }],
              trace := w.trace ++ dirEvents env filePath ++
                [.openFile (filePath ++ "/" ++ fileName) (O_APPEND ||| O_CREATE ||| O_RDWR)
                  0o644 (some w.files.length)] },
            .ok w.files.length)) ∧
    (∀ a b c d : String,
      "permission denied: " ++ a ≠ "mkdir err: " ++ b ++ ", " ++ c ∧
      "permission denied: " ++ a ≠ "fail to open file: " ++ d ∧
      "mkdir err: " ++ b ++ ", " ++ c ≠ "fail to open file: " ++ d) ∧
    (∃! o, outcomeIs o (MustOpen env fileName filePath w).2) := by
  refine ⟨fun h => MustOpen_permission env _ _ w h,
    fun _ hn e hm => MustOpen_mkdirErr env _ _ w e hn hm,
    fun hp hm e ho => MustOpen_openErr env _ _ w e hp hm ho,
    fun hp hm ho => MustOpen_opens env _ _ w ⟨hp, hm, ho⟩,
    messages_distinct, ?_⟩
  by_cases hp : env.stat filePath = some .permission
  · rw [MustOpen_permission env _ _ w hp]
    exact ⟨.permissionDenied, (permission_outcome _ _).2 rfl, fun o ho =>
      (permission_outcome _ _).1 ho⟩
  · by_cases hm : env.stat filePath = some .notExist → env.mkdirAll filePath ModePerm = none
    · cases ho : env.openFile (filePath ++ "/" ++ fileName) (O_APPEND ||| O_CREATE ||| O_RDWR)
          0o644 with
      | none =>
        rw [MustOpen_opens env _ _ w ⟨hp, hm, ho⟩]
        exact ⟨.opened, (opened_outcome _ _).2 rfl, fun o ho => (opened_outcome _ _).1 ho⟩
      | some e =>
        rw [MustOpen_openErr env _ _ w e hp hm ho]
        exact ⟨.openFailed, (openFailed_outcome _ _).2 rfl, fun o ho =>
          (openFailed_outcome _ _).1 ho⟩
    · have hn : env.stat filePath = some .notExist := by
        by_contra hc; exact hm (fun h => absurd h hc)
      cases hmk : env.mkdirAll filePath ModePerm with
      | none => exact absurd (fun _ => hmk) hm
      | some e =>
        rw [MustOpen_mkdirErr env _ _ w e hn hmk]
        exact ⟨.mkdirFailed, (mkdir_outcome _ _ _).2 rfl, fun o ho =>
          (mkdir_outcome _ _ _).1 ho⟩

theorem MustOpen_failure_ordering_witness :
    MustOpen envFresh "app.log" "logs" World.init
      = ({ World.init with
            files := [{ name := "logs/app.log", closed := false }],
            trace := [.stat "logs", .stat "logs", .mkdirAll "logs" 0o777 true,
              .openFile "logs/app.log" 0x442 0o644 (some 0)] },
          .ok 0) :=
  (MustOpen_failure_ordering envFresh "app.log" "logs" World.init).2.2.2.1
    (by decide) (fun _ => rfl) rfl

/-- C3, as stated, fails: it is not the case that for every directory whose
stat succeeds and in which the open is refused `MustOpen` returns the
`permission denied: <dir>` error. -/
theorem MustOpen_unwritable_not_permissionDenied :
    ¬ (∀ (env : Env) (fileName filePath : String) (w : World) (e : String),
        env.stat filePath = none →
        env.openFile (filePath ++ "/" ++ fileName) (O_APPEND ||| O_CREATE ||| O_RDWR) 0o644
          = some e →
        (MustOpen env fileName filePath w).2 = .error ("permission denied: " ++ filePath)) := by
  intro h
  have h1 := h envReadOnly "app.log" "logs" World.init "permission denied" rfl rfl
  have h2 : (MustOpen envReadOnly "app.log" "logs" World.init).2
      = .error "fail to open file: permission denied" := rfl
  rw [h2] at h1
  injection h1 with h1
  exact absurd h1 (by decide)

/-- C3 (amended): for a directory whose stat succeeds and in which the open
of the file is refused, `MustOpen` returns the error
`fail to open file: <error>`, its only actions are the two stats and the
refused open, and no file object is created; the error
`permission denied: <dir>` is returned exactly when the stat of the directory
itself is refused for permission. -/
theorem MustOpen_unwritable_directory (env : Env) (fileName filePath : String) (w : World) :
    (∀ e, env.stat filePath = none →
      env.openFile (filePath ++ "/" ++ fileName) (O_APPEND ||| O_CREATE ||| O_RDWR) 0o644
        = some e →
      MustOpen env fileName filePath w
        = ({ w with trace := w.trace ++ [.stat filePath, .stat filePath,
              .openFile (filePath ++ "/" ++ fileName) (O_APPEND ||| O_CREATE ||| O_RDWR) 0o644
                none] },
            .error ("fail to open file: " ++ e))) ∧
    ((MustOpen env fileName filePath w).2 = .error ("permission denied: " ++ filePath) ↔
      env.stat filePath = some .permission) := by
  constructor
  · intro e hs ho
    have hp : env.stat filePath ≠ some .permission := by rw [hs]; decide
    have hn : env.stat filePath ≠ some .notExist := by rw [hs]; decide
    rw [MustOpen_openErr env _ _ w e hp (fun h => absurd h hn) ho]
    simp [dirEvents, hn]
  · constructor
    · intro hr
      by_contra hp
      rcases MustOpen_cases env fileName filePath with ho | ⟨e, evs, _, he⟩
      · rw [MustOpen_opens env _ _ w ho] at hr
        cases hr
      · by_cases hm : env.stat filePath = some .notExist → env.mkdirAll filePath ModePerm = none
        · cases ho : env.openFile (filePath ++ "/" ++ fileName)
              (O_APPEND ||| O_CREATE ||| O_RDWR) 0o644 with
          | none =>
            rw [MustOpen_opens env _ _ w ⟨hp, hm, ho⟩] at hr
            cases hr
          | some e' =>
            rw [MustOpen_openErr env _ _ w e' hp hm ho] at hr
            injection hr with hr
            exact (messages_distinct filePath "" "" e').2.1 hr.symm
        · have hn : env.stat filePath = some .notExist := by
            by_contra hc; exact hm (fun h => absurd h hc)
          cases hmk : env.mkdirAll filePath ModePerm with
          | none => exact absurd (fun _ => hmk) hm
          | some e' =>
            rw [MustOpen_mkdirErr env _ _ w e' hn hmk] at hr
            injection hr with hr
            exact (messages_distinct filePath filePath e' "").1 hr.symm
    · intro hp
      rw [MustOpen_permission env _ _ w hp]

theorem MustOpen_unwritable_directory_witness :
    MustOpen envReadOnly "app.log" "logs" World.init
      = ({ World.init with trace := [.stat "logs", .stat "logs",
            .openFile "logs/app.log" 0x442 0o644 none] },
          .error "fail to open file: permission denied") :=
  (MustOpen_unwritable_directory envReadOnly "app.log" "logs" World.init).1
    "permission denied" rfl rfl

/-! ## The level functions by cases -/

theorem write_eq_logCore (env : Env) (level : Level) (v : List Value) (w : World) :
    write env level v w = logCore env level (Sprintln v) w := by
  unfold write logCore
  simp only
  cases setLinePrefix env level (match w.Logrer with
      | none => (Setup env {} w).1
      | some _ => w) with
  | mk w1 c1 =>
    cases c1 <;> simp only
    cases setLogFile env w1 with
    | mk w2 c2 =>
      cases c2 <;> simp only
      obtain ⟨L, once, files, trace⟩ := w2
      cases L with
      | none => rfl
      | some l =>
        obtain ⟨cfg, lf, lgo⟩ := l
        cases lgo with
        | none => rfl
        | some lg => rfl

theorem writef_eq_logCore (env : Env) (level : Level) (format : String) (v : List Value)
    (w : World) :
    writef env level format v w = logCore env level (env.sprintf (format ++ "\n") v) w := by
  unfold writef logCore
  simp only
  cases setLinePrefix env level (match w.Logrer with
      | none => (Setup env {} w).1
      | some _ => w) with
  | mk w1 c1 =>
    cases c1 <;> simp only
    cases setLogFile env w1 with
    | mk w2 c2 =>
      cases c2 <;> simp only
      obtain ⟨L, once, files, trace⟩ := w2
      cases L with
      | none => rfl
      | some l =>
        obtain ⟨cfg, lf, lgo⟩ := l
        cases lgo with
        | none => rfl
        | some lg => rfl

theorem call_eq_logCore (fn : LevelFn) (env : Env) (format : String) (v : List Value)
    (w : World) :
    fn.call env format v w = logCore env fn.level (fn.text env format v) w := by
  cases fn
  · exact write_eq_logCore env DEBUG v w
  · exact writef_eq_logCore env DEBUG format v w
  · exact write_eq_logCore env INFO v w
  · exact writef_eq_logCore env INFO format v w
  · exact write_eq_logCore env WARN v w
  · exact writef_eq_logCore env WARN format v w
  · exact write_eq_logCore env ERROR v w
  · exact writef_eq_logCore env ERROR format v w
  · exact write_eq_logCore env FATAL v w
  · exact writef_eq_logCore env FATAL format v w

theorem declared_tag {level : Level} (h : level.declared) :
    ∃ tag, tagOf level = some tag ∧
      (level = DEBUG → tag = "DEBUG") ∧ (level = INFO → tag = "INFO") ∧
      (level = WARN → tag = "WARN") ∧ (level = ERROR → tag = "ERROR") ∧
      (level = FATAL → tag = "FATAL") := by
  rcases h with h | h | h | h | h <;> subst h <;> exact ⟨_, rfl, by decide⟩

theorem fn_level_declared (fn : LevelFn) : fn.level.declared := by
  cases fn <;> simp [LevelFn.level, Level.declared]

theorem setLinePrefix_bound (env : Env) (level : Level) (tag : String) (cfg : Config)
    (lf : Option Nat) (lg : Logger) (once : Bool) (files : List OsFile) (trace : List Event)
    (ht : tagOf level = some tag) :
    setLinePrefix env level
        { Logrer := some { config := cfg, logFile := lf, logger := some lg },
          setuponce := once, files := files, trace := trace }
      = ({ Logrer := some { config := cfg, logFile := lf,
                            logger := some { out := lg.out, linePrefix := linePrefixFor env tag } },
           setuponce := once, files := files,
           trace := trace ++ [.setPrefix (linePrefixFor env tag)] }, .ret) := by
  unfold tagOf at ht
  unfold setLinePrefix
  rw [ht]
  cases hc : env.caller DefaultCallerDepth with
  | none => simp [linePrefixFor, hc, World.setLogrer, World.emit]
  | some p => obtain ⟨a, b⟩ := p; simp [linePrefixFor, hc, World.setLogrer, World.emit]

theorem setLogFile_same (env : Env) (cfg : Config) (h : Nat) (lg : Option Logger) (once : Bool)
    (files : List OsFile) (trace : List Event) (f : OsFile)
    (hf : files[h]? = some f) (hname : f.name = pathAt cfg env.now) :
    setLogFile env
        { Logrer := some { config := cfg, logFile := some h, logger := lg },
          setuponce := once, files := files, trace := trace }
      = ({ Logrer := some { config := cfg, logFile := some h, logger := lg },
           setuponce := once, files := files, trace := trace }, .ret) := by
  simp [setLogFile, hf, hname, pathAt, fileNameAt, logr.getLogFileName]

theorem setLogFile_reopen (env : Env) (cfg : Config) (h : Nat) (lg : Logger) (once : Bool)
    (files : List OsFile) (trace : List Event) (f : OsFile)
    (hf : files[h]? = some f) (hname : f.name ≠ pathAt cfg env.now)
    (ho : opens env (fileNameAt cfg env.now) cfg.FilePath) :
    setLogFile env
        { Logrer := some { config := cfg, logFile := some h, logger := some lg },
          setuponce := once, files := files, trace := trace }
      = ({ Logrer := some { config := cfg, logFile := some files.length,
                            logger := some { out := files.length, linePrefix := lg.linePrefix } },
           setuponce := once,
           files := files.set h { name := f.name, closed := true } ++
             [{ name := pathAt cfg env.now, closed := false }],
           trace := trace ++ [.close h] ++ dirEvents env cfg.FilePath ++
             [.openFile (pathAt cfg env.now) openFlags 0o644 (some files.length),
              .setOutput files.length] }, .ret) := by
  have hne : ¬ (cfg.FilePath ++ "/" ++ (cfg.FileNamePrefix ++ "-" ++ dayFormat env.now ++ ".log")
      = f.name) := fun hc => hname hc.symm
  simp [setLogFile, hf, hne, logr.getLogFileName, closeFile,
    MustOpen_opens _ _ _ _ (show opens env (cfg.FileNamePrefix ++ "-" ++ dayFormat env.now ++ ".log")
      cfg.FilePath from ho), World.setLogrer, World.emit, pathAt, fileNameAt, openFlags]

theorem setLogFile_reopen_fails (env : Env) (cfg : Config) (h : Nat) (lg : Option Logger)
    (once : Bool) (files : List OsFile) (trace : List Event) (f : OsFile) (e : String)
    (evs : List Event)
    (hf : files[h]? = some f) (hname : f.name ≠ pathAt cfg env.now)
    (he : ∀ w, MustOpen env (fileNameAt cfg env.now) cfg.FilePath w
      = ({ w with trace := w.trace ++ evs }, .error e)) :
    setLogFile env
        { Logrer := some { config := cfg, logFile := some h, logger := lg },
          setuponce := once, files := files, trace := trace }
      = ({ Logrer := some { config := cfg, logFile := some h, logger := lg },
           setuponce := once,
           files := files.set h { name := f.name, closed := true },
           trace := trace ++ [.close h] ++ evs ++
             [.stderr (stdHeader env.now ++ e ++ "\n")] }, .ret) := by
  have hne : ¬ (cfg.FilePath ++ "/" ++ (cfg.FileNamePrefix ++ "-" ++ dayFormat env.now ++ ".log")
      = f.name) := fun hc => hname hc.symm
  have he' := he
  simp only [fileNameAt] at he'
  simp [setLogFile, hf, hne, logr.getLogFileName, closeFile, he', World.emit]

theorem emitLine_bound (env : Env) (level : Level) (s : String) (cfg : Config)
    (lf : Option Nat) (lg : Logger) (once : Bool) (files : List OsFile) (trace : List Event)
    (hd : level.declared) :
    emitLine env level s
        { Logrer := some { config := cfg, logFile := lf, logger := some lg },
          setuponce := once, files := files, trace := trace }
      = ({ Logrer := some { config := cfg, logFile := lf, logger := some lg },
           setuponce := once, files := files,
           trace := trace ++ [writeEvent files lg.out (lineOf lg.linePrefix env s)] ++
             exitEvents level },
         ctlOf level) := by
  rcases hd with h | h | h | h | h <;> subst h <;>
    simp [emitLine, Logger.Output, writeFile, World.emit, lineOf, exitEvents, ctlOf, DEBUG, INFO, WARN,
      ERROR, FATAL]

theorem writeEvent_new (files : List OsFile) (f : OsFile) (line : String)
    (hf : f.closed = false) :
    writeEvent (files ++ [f]) files.length line = .write files.length line := by
  unfold writeEvent
  rw [List.getElem?_append_right (Nat.le_refl _)]
  simp [hf]

theorem writeEvent_open (files : List OsFile) (h : Nat) (f : OsFile) (line : String)
    (hf : files[h]? = some f) (ho : f.closed = false) :
    writeEvent files h line = .write h line := by
  simp [writeEvent, hf, ho]

theorem writeEvent_closed (files : List OsFile) (h : Nat) (f : OsFile) (line : String)
    (hf : files[h]? = some f) (ho : f.closed = true) :
    writeEvent files h line = .writeRefused h line := by
  simp [writeEvent, hf, ho]

theorem writeEvent_cases (files : List OsFile) (h : Nat) (line : String) :
    writeEvent files h line = .write h line ∨ writeEvent files h line = .writeRefused h line := by
  unfold writeEvent
  split
  · split
    · exact Or.inr rfl
    · exact Or.inl rfl
  · exact Or.inr rfl

theorem hookCalls_writeEvent (files : List OsFile) (h : Nat) (line : String) :
    hookCalls [writeEvent files h line] = [] := by
  rcases writeEvent_cases files h line with hw | hw <;> rw [hw] <;> rfl

theorem reopenFailures_writeEvent (files : List OsFile) (h : Nat) (line : String) :
    reopenFailures [writeEvent files h line] = [] := by
  rcases writeEvent_cases files h line with hw | hw <;> rw [hw] <;> rfl

theorem logCore_same (env : Env) (level : Level) (s tag : String) (cfg : Config) (h : Nat)
    (lg : Logger) (once : Bool) (files : List OsFile) (trace : List Event) (f : OsFile)
    (hd : level.declared) (ht : tagOf level = some tag)
    (hf : files[h]? = some f) (hname : f.name = pathAt cfg env.now) :
    logCore env level s
        { Logrer := some { config := cfg, logFile := some h, logger := some lg },
          setuponce := once, files := files, trace := trace }
      = ({ Logrer := some { config := cfg, logFile := some h,
                            logger := some { out := lg.out, linePrefix := linePrefixFor env tag } },
           setuponce := once, files := files,
           trace := trace ++ [.setPrefix (linePrefixFor env tag)] ++
             [writeEvent files lg.out (lineOf (linePrefixFor env tag) env s)] ++
             exitEvents level },
         ctlOf level) := by
  simp only [logCore, setLinePrefix_bound env level tag cfg (some h) lg once files trace ht,
    setLogFile_same env cfg h _ once files _ f hf hname, emitLine_bound _ _ _ _ _ _ _ _ _ hd]

theorem logCore_reopen (env : Env) (level : Level) (s tag : String) (cfg : Config) (h : Nat)
    (lg : Logger) (once : Bool) (files : List OsFile) (trace : List Event) (f : OsFile)
    (hd : level.declared) (ht : tagOf level = some tag)
    (hf : files[h]? = some f) (hname : f.name ≠ pathAt cfg env.now)
    (ho : opens env (fileNameAt cfg env.now) cfg.FilePath) :
    logCore env level s
        { Logrer := some { config := cfg, logFile := some h, logger := some lg },
          setuponce := once, files := files, trace := trace }
      = ({ Logrer := some { config := cfg, logFile := some files.length,
                            logger := some { out := files.length,
                                             linePrefix := linePrefixFor env tag } },
           setuponce := once,
           files := files.set h { name := f.name, closed := true } ++
             [{ name := pathAt cfg env.now, closed := false }],
           trace := trace ++ [.setPrefix (linePrefixFor env tag)] ++ [.close h] ++
             dirEvents env cfg.FilePath ++
             [.openFile (pathAt cfg env.now) openFlags 0o644 (some files.length),
              .setOutput files.length] ++
             [.write files.length (lineOf (linePrefixFor env tag) env s)] ++ exitEvents level },
         ctlOf level) := by
  have hlen : (files.set h { name := f.name, closed := true }).length = files.length := by
    simp
  have hw := writeEvent_new (files.set h { name := f.name, closed := true })
    { name := pathAt cfg env.now, closed := false }
    (lineOf (linePrefixFor env tag) env s) rfl
  rw [hlen] at hw
  simp only [logCore, setLinePrefix_bound env level tag cfg (some h) lg once files trace ht,
    setLogFile_reopen env cfg h _ once files _ f hf hname ho,
    emitLine_bound _ _ _ _ _ _ _ _ _ hd, hw]

theorem logCore_reopen_fails (env : Env) (level : Level) (s tag : String) (cfg : Config)
    (h : Nat) (lg : Logger) (once : Bool) (files : List OsFile) (trace : List Event) (f : OsFile)
    (e : String) (evs : List Event)
    (hd : level.declared) (ht : tagOf level = some tag)
    (hf : files[h]? = some f) (hname : f.name ≠ pathAt cfg env.now)
    (he : ∀ w, MustOpen env (fileNameAt cfg env.now) cfg.FilePath w
      = ({ w with trace := w.trace ++ evs }, .error e)) :
    logCore env level s
        { Logrer := some { config := cfg, logFile := some h, logger := some lg },
          setuponce := once, files := files, trace := trace }
      = ({ Logrer := some { config := cfg, logFile := some h,
                            logger := some { out := lg.out, linePrefix := linePrefixFor env tag } },
           setuponce := once,
           files := files.set h { name := f.name, closed := true },
           trace := trace ++ [.setPrefix (linePrefixFor env tag)] ++ [.close h] ++ evs ++
             [.stderr (stdHeader env.now ++ e ++ "\n")] ++
             [writeEvent (files.set h { name := f.name, closed := true }) lg.out
                (lineOf (linePrefixFor env tag) env s)] ++ exitEvents level },
         ctlOf level) := by
  simp only [logCore, setLinePrefix_bound env level tag cfg (some h) lg once files trace ht,
    setLogFile_reopen_fails env cfg h _ once files _ f e evs hf hname he,
    emitLine_bound _ _ _ _ _ _ _ _ _ hd]

/-- A level call on a singleton without logger panics and changes nothing. -/
theorem logCore_dead (env : Env) (level : Level) (s : String) (w : World) (l : logr)
    (hl : w.Logrer = some l) (hlg : l.logger = none) :
    logCore env level s w = (w, .panic nilDeref) ∨
    logCore env level s w = (w, .panic indexOutOfRange) := by
  unfold logCore setLinePrefix
  simp only [hl]
  cases tagOf' : (if 0 ≤ level then levelFlags[level.toNat]? else none) with
  | none => right; rfl
  | some tag => left; simp [hlg]

theorem writes_fsOnly {es : List Event} (h : fsOnly es) : writes es = [] := by
  unfold writes
  rw [List.filter_eq_nil_iff]
  intro e he
  have := h e he
  cases e <;> simp_all [Event.isFs]

theorem hookCalls_fsOnly {es : List Event} (h : fsOnly es) : hookCalls es = [] := by
  unfold hookCalls
  rw [List.filter_eq_nil_iff]
  intro e he
  have := h e he
  cases e <;> simp_all [Event.isFs]

theorem reopenFailures_fsOnly {es : List Event} (h : fsOnly es) : reopenFailures es = [] := by
  unfold reopenFailures
  rw [List.filter_eq_nil_iff]
  intro e he
  have := h e he
  cases e <;> simp_all [Event.isFs]

theorem writes_append (a b : List Event) : writes (a ++ b) = writes a ++ writes b := by
  simp [writes]

theorem hookCalls_append (a b : List Event) : hookCalls (a ++ b) = hookCalls a ++ hookCalls b := by
  simp [hookCalls]

theorem reopenFailures_append (a b : List Event) :
    reopenFailures (a ++ b) = reopenFailures a ++ reopenFailures b := by
  simp [reopenFailures]

theorem writes_exitEvents (level : Level) : writes (exitEvents level) = [] := by
  unfold exitEvents; split <;> simp [writes]

theorem hookCalls_exitEvents (level : Level) : hookCalls (exitEvents level) = [] := by
  unfold exitEvents; split <;> simp [hookCalls]

theorem reopenFailures_exitEvents (level : Level) : reopenFailures (exitEvents level) = [] := by
  unfold exitEvents; split <;> simp [reopenFailures]

/-- A level call on a singleton with bound logger and log file: the prefix is
set, then the rotation check runs (its actions are `mid`, none of them a write
or a hook call), then the one `Write` of the line is made on the logger's
output. -/
theorem logCore_bound (env : Env) (level : Level) (s tag : String) (cfg : Config) (h : Nat)
    (lg : Logger) (once : Bool) (files : List OsFile) (trace : List Event) (f : OsFile)
    (hd : level.declared) (ht : tagOf level = some tag) (hf : files[h]? = some f) :
    ∃ h' files' mid out f',
      setLinePrefix env level
          { Logrer := some { config := cfg, logFile := some h, logger := some lg },
            setuponce := once, files := files, trace := trace }
        = ({ Logrer := some { config := cfg, logFile := some h,
                              logger := some { out := lg.out, linePrefix := linePrefixFor env tag } },
             setuponce := once, files := files,
             trace := trace ++ [.setPrefix (linePrefixFor env tag)] }, .ret) ∧
      setLogFile env
          { Logrer := some { config := cfg, logFile := some h,
                             logger := some { out := lg.out, linePrefix := linePrefixFor env tag } },
            setuponce := once, files := files,
            trace := trace ++ [.setPrefix (linePrefixFor env tag)] }
        = ({ Logrer := some { config := cfg, logFile := some h',
                              logger := some { out := out, linePrefix := linePrefixFor env tag } },
             setuponce := once, files := files',
             trace := trace ++ [.setPrefix (linePrefixFor env tag)] ++ mid }, .ret) ∧
      logCore env level s
          { Logrer := some { config := cfg, logFile := some h, logger := some lg },
            setuponce := once, files := files, trace := trace }
        = ({ Logrer := some { config := cfg, logFile := some h',
                              logger := some { out := out, linePrefix := linePrefixFor env tag } },
             setuponce := once, files := files',
             trace := trace ++ [.setPrefix (linePrefixFor env tag)] ++ mid ++
               [writeEvent files' out (lineOf (linePrefixFor env tag) env s)] ++
               exitEvents level },
           ctlOf level) ∧
      writes mid = [] ∧ hookCalls mid = [] ∧ files'[h']? = some f' := by
  have hlt : h < files.length := by
    rcases Nat.lt_or_ge h files.length with hl | hl
    · exact hl
    · rw [List.getElem?_eq_none hl] at hf; cases hf
  have hsp := setLinePrefix_bound env level tag cfg (some h) lg once files trace ht
  by_cases hname : f.name = pathAt cfg env.now
  · refine ⟨h, files, [], lg.out, f, hsp, ?_, ?_, rfl, rfl, hf⟩
    · rw [setLogFile_same env cfg h _ once files _ f hf hname]; simp
    · rw [logCore_same env level s tag cfg h lg once files trace f hd ht hf hname]; simp
  · rcases MustOpen_cases env (fileNameAt cfg env.now) cfg.FilePath with ho | ⟨e, evs, hfs, he⟩
    · refine ⟨files.length, files.set h { name := f.name, closed := true } ++
          [{ name := pathAt cfg env.now, closed := false }],
        [.close h] ++ dirEvents env cfg.FilePath ++
          [.openFile (pathAt cfg env.now) openFlags 0o644 (some files.length),
           .setOutput files.length], files.length,
        { name := pathAt cfg env.now, closed := false }, hsp, ?_, ?_, ?_, ?_, ?_⟩
      · rw [setLogFile_reopen env cfg h _ once files _ f hf hname ho]
        simp [List.append_assoc]
      · have hlen : (files.set h { name := f.name, closed := true }).length = files.length := by
          simp
        have hw := writeEvent_new (files.set h { name := f.name, closed := true })
          { name := pathAt cfg env.now, closed := false }
          (lineOf (linePrefixFor env tag) env s) rfl
        rw [hlen] at hw
        rw [logCore_reopen env level s tag cfg h lg once files trace f hd ht hf hname ho, hw]
        simp [List.append_assoc]
      · simp only [writes_append, writes_fsOnly (fsOnly_dirEvents env _)]
        rfl
      · simp only [hookCalls_append, hookCalls_fsOnly (fsOnly_dirEvents env _)]
        rfl
      · rw [List.getElem?_append_right (by simp)]
        simp
    · refine ⟨h, files.set h { name := f.name, closed := true },
        [.close h] ++ evs ++ [.stderr (stdHeader env.now ++ e ++ "\n")], lg.out,
        { name := f.name, closed := true }, hsp, ?_, ?_, ?_, ?_, ?_⟩
      · rw [setLogFile_reopen_fails env cfg h _ once files _ f e evs hf hname he]
        simp [List.append_assoc]
      · rw [logCore_reopen_fails env level s tag cfg h lg once files trace f e evs hd ht hf
          hname he]
        simp [List.append_assoc]
      · simp only [writes_append, writes_fsOnly hfs]
        rfl
      · simp only [hookCalls_append, hookCalls_fsOnly hfs]
        rfl
      · simp [hlt]

/-! ## The print hook is never called by the level functions -/

theorem MustOpen_trace (env : Env) (fileName filePath : String) (w : World) :
    ∃ evs, fsOnly evs ∧ (MustOpen env fileName filePath w).1.trace = w.trace ++ evs ∧
      (MustOpen env fileName filePath w).1.Logrer = w.Logrer ∧
      (MustOpen env fileName filePath w).1.setuponce = w.setuponce := by
  rcases MustOpen_cases env fileName filePath with ho | ⟨e, evs, hfs, he⟩
  · rw [MustOpen_opens env _ _ w ho]
    exact ⟨_, fsOnly_dirEvents_open env filePath (.openFile (filePath ++ "/" ++ fileName)
      (O_APPEND ||| O_CREATE ||| O_RDWR) 0o644 (some w.files.length)) rfl,
      by simp [List.append_assoc], rfl, rfl⟩
  · rw [he w]
    exact ⟨evs, hfs, rfl, rfl, rfl⟩

theorem MustOpen_hookCalls (env : Env) (fileName filePath : String) (w : World) :
    hookCalls (MustOpen env fileName filePath w).1.trace = hookCalls w.trace := by
  obtain ⟨evs, hfs, ht, _⟩ := MustOpen_trace env fileName filePath w
  rw [ht, hookCalls_append, hookCalls_fsOnly hfs, List.append_nil]

theorem Setup_hookCalls (env : Env) (c : Config) (w : World) :
    hookCalls (Setup env c w).1.trace = hookCalls w.trace := by
  cases h : w.setuponce with
  | true => rw [Setup_done env c w h]
  | false =>
    rw [Setup_first env c w h]
    have := MustOpen_hookCalls env (fileNameAt (storedConfig c) env.now) (storedConfig c).FilePath
      { w with setuponce := true,
               Logrer := some { config := storedConfig c, logFile := none, logger := none } }
    revert this
    cases MustOpen env (fileNameAt (storedConfig c) env.now) (storedConfig c).FilePath
      { w with setuponce := true,
               Logrer := some { config := storedConfig c, logFile := none, logger := none } } with
    | mk w2 r => cases r <;> simp

theorem setLinePrefix_hookCalls (env : Env) (level : Level) (w : World) :
    hookCalls (setLinePrefix env level w).1.trace = hookCalls w.trace := by
  obtain ⟨L, once, files, trace⟩ := w
  cases ht : (if 0 ≤ level then levelFlags[level.toNat]? else none) with
  | none => simp [setLinePrefix, ht]
  | some tag =>
    cases L with
    | none => simp [setLinePrefix, ht]
    | some l =>
      obtain ⟨cfg, lf, lgo⟩ := l
      cases lgo with
      | none => simp [setLinePrefix, ht]
      | some lg => simp [setLinePrefix, ht, World.emit, World.setLogrer, hookCalls]

theorem setLogFile_differ (env : Env) (cfg : Config) (h : Nat) (lgo : Option Logger)
    (once : Bool) (files : List OsFile) (trace : List Event) (f : OsFile)
    (hf : files[h]? = some f) (hname : f.name ≠ pathAt cfg env.now) :
    setLogFile env
        { Logrer := some { config := cfg, logFile := some h, logger := lgo },
          setuponce := once, files := files, trace := trace }
      = match MustOpen env (fileNameAt cfg env.now) cfg.FilePath
          { Logrer := some { config := cfg, logFile := some h, logger := lgo },
            setuponce := once, files := files.set h { name := f.name, closed := true },
            trace := trace ++ [.close h] } with
        | (w2, .error err) => (w2.emit (.stderr (stdHeader env.now ++ err ++ "\n")), .ret)
        | (w2, .ok f1) =>
          match lgo with
          | none => (w2.setLogrer { config := cfg, logFile := some f1, logger := none },
              .panic nilDeref)
          | some lg => ((w2.setLogrer { config := cfg, logFile := some f1,
                                        logger := some { lg with out := f1 } }).emit
              (.setOutput f1), .ret) := by
  have hne : ¬ (cfg.FilePath ++ "/" ++ (cfg.FileNamePrefix ++ "-" ++ dayFormat env.now ++ ".log")
      = f.name) := fun hc => hname hc.symm
  cases lgo <;> simp [setLogFile, hf, hne, logr.getLogFileName, closeFile, fileNameAt]

theorem setLogFile_hookCalls (env : Env) (w : World) :
    hookCalls (setLogFile env w).1.trace = hookCalls w.trace := by
  obtain ⟨L, once, files, trace⟩ := w
  cases L with
  | none => simp [setLogFile]
  | some l =>
    obtain ⟨cfg, lf, lgo⟩ := l
    cases lf with
    | none => simp [setLogFile]
    | some h =>
      cases hf : files[h]? with
      | none => simp [setLogFile, hf]
      | some f =>
        by_cases hname : f.name = pathAt cfg env.now
        · rw [setLogFile_same env cfg h lgo once files trace f hf hname]
        · rw [setLogFile_differ env cfg h lgo once files trace f hf hname]
          have hm := MustOpen_hookCalls env (fileNameAt cfg env.now) cfg.FilePath
            { Logrer := some { config := cfg, logFile := some h, logger := lgo },
              setuponce := once, files := files.set h { name := f.name, closed := true },
              trace := trace ++ [.close h] }
          have hc : hookCalls (trace ++ [Event.close h]) = hookCalls trace := by
            simp [hookCalls]
          simp only [hc] at hm
          revert hm
          cases MustOpen env (fileNameAt cfg env.now) cfg.FilePath
            { Logrer := some { config := cfg, logFile := some h, logger := lgo },
              setuponce := once, files := files.set h { name := f.name, closed := true },
              trace := trace ++ [.close h] } with
          | mk w2 r =>
            intro hm
            cases r with
            | error e =>
              simp only [World.emit, hookCalls_append]
              simpa [hookCalls] using hm
            | ok f1 =>
              cases lgo with
              | none => simpa [World.setLogrer] using hm
              | some lg =>
                simp only [World.emit, World.setLogrer, hookCalls_append]
                simpa [hookCalls] using hm

theorem Output_hookCalls (lg : Logger) (env : Env) (s : String) (w : World) :
    hookCalls (lg.Output env s w).trace = hookCalls w.trace := by
  simp only [Logger.Output, writeFile, World.emit, hookCalls_append, hookCalls_writeEvent,
    List.append_nil]

theorem emitLine_hookCalls (env : Env) (level : Level) (s : String) (w : World) :
    hookCalls (emitLine env level s w).1.trace = hookCalls w.trace := by
  obtain ⟨L, once, files, trace⟩ := w
  cases L with
  | none => simp [emitLine]
  | some l =>
    obtain ⟨cfg, lf, lgo⟩ := l
    cases lgo with
    | none => simp [emitLine]
    | some lg =>
      simp only [emitLine]
      split
      · exact Output_hookCalls _ _ _ _
      · split
        · simp only [World.emit, hookCalls_append, Output_hookCalls]
          simp [hookCalls]
        · exact Output_hookCalls _ _ _ _

theorem logCore_hookCalls (env : Env) (level : Level) (s : String) (w : World) :
    hookCalls (logCore env level s w).1.trace = hookCalls w.trace := by
  have h0 : hookCalls (match w.Logrer with
      | none => (Setup env {} w).1
      | some _ => w).trace = hookCalls w.trace := by
    split
    · exact Setup_hookCalls env {} w
    · rfl
  unfold logCore
  simp only
  generalize (match w.Logrer with
      | none => (Setup env {} w).1
      | some _ => w) = w0 at h0 ⊢
  have h1 := setLinePrefix_hookCalls env level w0
  revert h1
  cases setLinePrefix env level w0 with
  | mk w1 c1 =>
    intro h1
    cases c1 with
    | ret =>
      simp only
      have h2 := setLogFile_hookCalls env w1
      revert h2
      cases setLogFile env w1 with
      | mk w2 c2 =>
        intro h2
        cases c2 with
        | ret =>
          simp only
          rw [emitLine_hookCalls, h2, h1, h0]
        | exit c => simp only; rw [h2, h1, h0]
        | panic m => simp only; rw [h2, h1, h0]
    | exit c => simp only; rw [h1, h0]
    | panic m => simp only; rw [h1, h0]

/-! ## The level functions do not depend on the print hook -/

theorem logCore_hook_frame (env : Env) (level : Level) (s : String) (cfg : Config)
    (lf : Option Nat) (lgo : Option Logger) (once : Bool) (files : List OsFile)
    (trace : List Event) (g : Option PrintfFunc) (hd : level.declared) :
    (logCore env level s
        { Logrer := some { config := { cfg with PrintfFunc := g }, logFile := lf, logger := lgo },
          setuponce := once, files := files, trace := trace }).2
      = (logCore env level s
        { Logrer := some { config := cfg, logFile := lf, logger := lgo },
          setuponce := once, files := files, trace := trace }).2 ∧
    (logCore env level s
        { Logrer := some { config := { cfg with PrintfFunc := g }, logFile := lf, logger := lgo },
          setuponce := once, files := files, trace := trace }).1.trace
      = (logCore env level s
        { Logrer := some { config := cfg, logFile := lf, logger := lgo },
          setuponce := once, files := files, trace := trace }).1.trace ∧
    (logCore env level s
        { Logrer := some { config := { cfg with PrintfFunc := g }, logFile := lf, logger := lgo },
          setuponce := once, files := files, trace := trace }).1.files
      = (logCore env level s
        { Logrer := some { config := cfg, logFile := lf, logger := lgo },
          setuponce := once, files := files, trace := trace }).1.files := by
  obtain ⟨tag, ht, -⟩ := declared_tag hd
  have ht' := ht
  unfold tagOf at ht'
  cases lgo with
  | none => simp [logCore, setLinePrefix, ht']
  | some lg =>
    cases lf with
    | none =>
      simp only [logCore, setLinePrefix_bound env level tag _ none lg once files trace ht]
      simp [setLogFile]
    | some h =>
      cases hf : files[h]? with
      | none =>
        simp only [logCore, setLinePrefix_bound env level tag _ (some h) lg once files trace ht]
        simp [setLogFile, hf]
      | some f =>
        by_cases hname : f.name = pathAt cfg env.now
        · rw [logCore_same env level s tag cfg h lg once files trace f hd ht hf hname,
            logCore_same env level s tag { cfg with PrintfFunc := g } h lg once files trace f hd
              ht hf hname]
          exact ⟨rfl, rfl, rfl⟩
        · rcases MustOpen_cases env (fileNameAt cfg env.now) cfg.FilePath with
            ho | ⟨e, evs, hfs, he⟩
          · rw [logCore_reopen env level s tag cfg h lg once files trace f hd ht hf hname ho,
              logCore_reopen env level s tag { cfg with PrintfFunc := g } h lg once files trace
                f hd ht hf hname ho]
            exact ⟨rfl, rfl, rfl⟩
          · rw [logCore_reopen_fails env level s tag cfg h lg once files trace f e evs hd ht hf
                hname he,
              logCore_reopen_fails env level s tag { cfg with PrintfFunc := g } h lg once files
                trace f e evs hd ht hf hname he]
            exact ⟨rfl, rfl, rfl⟩

theorem call_hook_frame (env : Env) (fn : LevelFn) (format : String) (v : List Value)
    (w : World) (g : Option PrintfFunc) :
    (fn.call env format v (w.withHook g)).2 = (fn.call env format v w).2 ∧
    (fn.call env format v (w.withHook g)).1.trace = (fn.call env format v w).1.trace ∧
    (fn.call env format v (w.withHook g)).1.files = (fn.call env format v w).1.files := by
  obtain ⟨L, once, files, trace⟩ := w
  cases L with
  | none => exact ⟨rfl, rfl, rfl⟩
  | some l =>
    obtain ⟨cfg, lf, lgo⟩ := l
    rw [call_eq_logCore, call_eq_logCore]
    exact logCore_hook_frame env fn.level _ cfg lf lgo once files trace g (fn_level_declared fn)

/-! ## Claims about the line prefix, the print hook and the level dispatch -/

theorem lineOf_Sprintln (p : String) (env : Env) (v : List Value) :
    lineOf p env (Sprintln v) = p ++ stdHeader env.now ++ Sprintln v := by
  have : (Sprintln v).data.getLast? = some '\n' := by
    simp [Sprintln, String.data_append]
  simp [lineOf, this]

theorem Output_eq (lg : Logger) (env : Env) (s : String) (w : World) :
    lg.Output env s w = w.emit (writeEvent w.files lg.out (lineOf lg.linePrefix env s)) := rfl

/-- C9, as stated, fails: the first `Setup` on the read-only system fails and
leaves a singleton without logger; on it, with a caller lookup at depth 3
that succeeds, `setLinePrefix` panics on the nil logger and sets no prefix,
and so does the `Debug` call that reaches it. -/
theorem setLinePrefix_panics_without_logger :
    (Setup envReadOnly testConfig World.init).2 = some "fail to open file: permission denied" ∧
    worldFailedSetup.Logrer = some { config := storedConfig testConfig, logFile := none,
                                     logger := none } ∧
    envFresh.caller 3 = some ("/home/rao/logr/log_test.go", 6) ∧
    setLinePrefix envFresh DEBUG worldFailedSetup = (worldFailedSetup, .panic nilDeref) ∧
    Debug envFresh testValues worldFailedSetup = (worldFailedSetup, .panic nilDeref) :=
  ⟨rfl, rfl, rfl, rfl, rfl⟩

/-- C9 (amended): for each of the five levels the index into the tag table is in
range and yields DEBUG, INFO, WARN, ERROR, FATAL respectively; on a singleton
whose logger is bound, `setLinePrefix` sets the logger's prefix to
`TAG|base(file):line|` when the caller lookup at depth 3 succeeds with `file`
and `line`, and to `TAG|` when it fails, and returns; after a call of a level
function of that level on a singleton that also has its log file, the logger
carries that prefix; and the line a `Debug` call hands to `Write` is
`DEBUG|base(file):line|`, the date and time, and the values. -/
theorem setLinePrefix_format (env : Env) (level : Level) (w : World) (l : logr) (lg : Logger)
    (hd : level = DEBUG ∨ level = INFO ∨ level = WARN ∨ level = ERROR ∨ level = FATAL)
    (hl : w.Logrer = some l) (hlg : l.logger = some lg) :
    ∃ tag pfx, 0 ≤ level ∧ levelFlags[level.toNat]? = some tag ∧
      (level = DEBUG → tag = "DEBUG") ∧ (level = INFO → tag = "INFO") ∧
      (level = WARN → tag = "WARN") ∧ (level = ERROR → tag = "ERROR") ∧
      (level = FATAL → tag = "FATAL") ∧
      (∀ file line, env.caller 3 = some (file, line) →
        pfx = tag ++ "|" ++ filepath.Base file ++ ":" ++ toString line ++ "|") ∧
      (env.caller 3 = none → pfx = tag ++ "|") ∧
      setLinePrefix env level w =
        ({ w with
            Logrer := some { l with logger := some { lg with linePrefix := pfx } },
            trace := w.trace ++ [.setPrefix pfx] },
          .ret) ∧
      (∀ (fn : LevelFn) (format : String) (v : List Value) (h : Nat) (f : OsFile),
        fn.level = level → l.logFile = some h → w.files[h]? = some f →
        ∃ (l' : logr) (lg' : Logger), (fn.call env format v w).1.Logrer = some l' ∧
          l'.logger = some lg' ∧ lg'.linePrefix = pfx) ∧
      (level = DEBUG → ∀ v h f, l.logFile = some h → w.files[h]? = some f →
        ∃ out,
          (Debug env v w).1.trace.getLast? =
            some (.write out (pfx ++ stdHeader env.now ++ Sprintln v)) ∨
          (Debug env v w).1.trace.getLast? =
            some (.writeRefused out (pfx ++ stdHeader env.now ++ Sprintln v))) := by
  obtain ⟨tag, ht, h0, h1, h2, h3, h4⟩ := declared_tag hd
  obtain ⟨L, once, files, trace⟩ := w
  obtain ⟨cfg, lf, lgo⟩ := l
  simp only at hl hlg
  subst hl hlg
  have hsp := setLinePrefix_bound env level tag cfg lf lg once files trace ht
  have hnn : 0 ≤ level := by
    rcases hd with h | h | h | h | h <;> subst h <;> decide
  have ht' : levelFlags[level.toNat]? = some tag := by
    unfold tagOf at ht; rwa [if_pos hnn] at ht
  refine ⟨tag, linePrefixFor env tag, hnn, ht', h0, h1, h2, h3, h4, ?_, ?_, hsp, ?_, ?_⟩
  · intro file line hc
    have hc' : env.caller DefaultCallerDepth = some (file, line) := hc
    simp [linePrefixFor, hc']
  · intro hc
    have hc' : env.caller DefaultCallerDepth = none := hc
    simp [linePrefixFor, hc']
  · intro fn format v h f hfn hh hf
    simp only at hh hf
    subst hh hfn
    obtain ⟨h', files', mid, out, f', -, -, hcore, -, -, -⟩ :=
      logCore_bound env fn.level (fn.text env format v) tag cfg h lg once files trace f
        (fn_level_declared fn) ht hf
    rw [call_eq_logCore, hcore]
    exact ⟨_, _, rfl, rfl, rfl⟩
  · intro hlev v h f hh hf
    simp only at hh hf
    subst hh hlev
    obtain ⟨h', files', mid, out, f', -, -, hcore, -, -, -⟩ :=
      logCore_bound env DEBUG (Sprintln v) tag cfg h lg once files trace f (Or.inl rfl)
        ht hf
    refine ⟨out, ?_⟩
    have hDebug : ∀ w', Debug env v w' = logCore env DEBUG (Sprintln v) w' :=
      fun w' => write_eq_logCore env DEBUG v w'
    rw [hDebug, hcore]
    have hex : exitEvents DEBUG = [] := by decide
    simp only [hex, List.append_nil, lineOf_Sprintln]
    rcases writeEvent_cases files' out (linePrefixFor env tag ++ stdHeader env.now ++ Sprintln v)
      with hw | hw
    · left; rw [hw]; exact List.getLast?_concat _
    · right; rw [hw]; exact List.getLast?_concat _

theorem setLinePrefix_format_witness :
    setLinePrefix envSameDay WARN worldAfterSetup =
      ({ worldAfterSetup with
          Logrer := some { config := storedConfig testConfig, logFile := some 0,
                           logger := some { out := 0, linePrefix := "WARN|log_test.go:6|" } },
          trace := worldAfterSetup.trace ++ [.setPrefix "WARN|log_test.go:6|"] }, .ret) := by
  obtain ⟨tag, pfx, -, -, -, -, hW, -, -, hc, -, hs, -⟩ :=
    setLinePrefix_format envSameDay WARN worldAfterSetup
      { config := storedConfig testConfig, logFile := some 0,
        logger := some { out := 0, linePrefix := "" } }
      { out := 0, linePrefix := "" } (Or.inr (Or.inr (Or.inl rfl))) rfl rfl
  rw [hs, hc "/home/rao/logr/log_test.go" 6 rfl, hW rfl]
  rfl

/-- C10, as stated, fails: `worldAfterSetup` has a bound logger and an open log
file; on the next day, under a system that refuses the open, `Info` returns
and `Fatal` exits, and neither emits a line: the one `Write` goes to the file
that `setLogFile` closed and kept, and is refused. -/
theorem line_lost_after_failed_reopen :
    Initialised worldAfterSetup ∧
    worldAfterSetup.files = [{ name := "runtime/consoles/console-20261104.log",
                               closed := false }] ∧
    Info envReadOnly testValues worldAfterSetup =
      ({ worldAfterSetup with
          Logrer := some { config := storedConfig testConfig, logFile := some 0,
                           logger := some { out := 0, linePrefix := "INFO|log_test.go:6|" } },
          files := [{ name := "runtime/consoles/console-20261104.log", closed := true }],
          trace := worldAfterSetup.trace ++
            [.setPrefix "INFO|log_test.go:6|",
             .close 0,
             .stat "runtime/consoles", .stat "runtime/consoles",
             .openFile "runtime/consoles/console-20261105.log" 0x442 0o644 none,
             .stderr "2026/11/05 00:00:01 fail to open file: permission denied\n",
             .writeRefused 0 "INFO|log_test.go:6|2026/11/05 00:00:01 12 rao [q w e]\n"] },
        .ret) ∧
    writes (Info envReadOnly testValues worldAfterSetup).1.trace = [] ∧
    (Fatal envReadOnly testValues worldAfterSetup).2 = .exit 1 ∧
    writes (Fatal envReadOnly testValues worldAfterSetup).1.trace = [] :=
  ⟨⟨_, _, _, _, rfl, rfl, rfl, rfl⟩, rfl, rfl, rfl, rfl, rfl⟩

/-- C10 (amended): on a singleton with bound logger and log file, for each of
the five levels `setLinePrefix` and then `setLogFile` run and return (neither
writes a line), leaving a world `w2` with logger `lg2`; `write` and `writef`
then make exactly one `Write` of the line on the output of `lg2`; for DEBUG,
INFO, WARN and ERROR they return, for FATAL the `Write` is followed by
`os.Exit(1)`, and in a program nothing after a `Fatal` or `Fatalf` call runs.
The `Write` emits the line when the output of `lg2` is open and is refused
when it is closed.  It is open whenever the logger wrote to its open log file
before the call and the rotation check needed no reopening or its reopening
succeeded; it is closed after a reopening that failed. -/
theorem level_dispatch (env : Env) (level : Level) (format : String) (v : List Value)
    (w : World)
    (hd : level = DEBUG ∨ level = INFO ∨ level = WARN ∨ level = ERROR ∨ level = FATAL)
    (hi : Initialised w) :
    ∃ w1 w2 l2 lg2,
      setLinePrefix env level w = (w1, .ret) ∧
      setLogFile env w1 = (w2, .ret) ∧
      w2.Logrer = some l2 ∧ l2.logger = some lg2 ∧
      writes w2.trace = writes w.trace ∧
      (level ≠ FATAL →
        write env level v w = (lg2.Output env (Sprintln v) w2, .ret) ∧
        writef env level format v w
          = (lg2.Output env (env.sprintf (format ++ "\n") v) w2, .ret)) ∧
      (level = FATAL →
        write env level v w = ((lg2.Output env (Sprintln v) w2).emit (.exit 1), .exit 1) ∧
        writef env level format v w
          = ((lg2.Output env (env.sprintf (format ++ "\n") v) w2).emit (.exit 1), .exit 1)) ∧
      (∀ (s : String) (f2 : OsFile), w2.files[lg2.out]? = some f2 → f2.closed = false →
        lg2.Output env s w2 = w2.emit (.write lg2.out (lineOf lg2.linePrefix env s))) ∧
      (∀ (s : String) (f2 : OsFile), w2.files[lg2.out]? = some f2 → f2.closed = true →
        lg2.Output env s w2 = w2.emit (.writeRefused lg2.out (lineOf lg2.linePrefix env s))) ∧
      (∀ (cfg : Config) (h : Nat) (lg : Logger) (f : OsFile),
        w.Logrer = some { config := cfg, logFile := some h, logger := some lg } →
        lg.out = h → w.files[h]? = some f → f.closed = false →
        f.name = cfg.FilePath ++ "/" ++ fileNameAt cfg env.now ∨
          opens env (fileNameAt cfg env.now) cfg.FilePath →
        ∃ f2, w2.files[lg2.out]? = some f2 ∧ f2.closed = false) ∧
      (∀ (cfg : Config) (h : Nat) (lg : Logger) (f : OsFile),
        w.Logrer = some { config := cfg, logFile := some h, logger := some lg } →
        lg.out = h → w.files[h]? = some f →
        f.name ≠ cfg.FilePath ++ "/" ++ fileNameAt cfg env.now →
        ¬ opens env (fileNameAt cfg env.now) cfg.FilePath →
        ∃ f2, w2.files[lg2.out]? = some f2 ∧ f2.closed = true) ∧
      (∀ rest, exec ((env, .Level .Fatal format v) :: rest) w
        = [{ env := env, op := .Level .Fatal format v, res := .done (.exit 1),
             world := (Fatal env v w).1 }]) ∧
      (∀ rest, exec ((env, .Level .Fatalf format v) :: rest) w
        = [{ env := env, op := .Level .Fatalf format v, res := .done (.exit 1),
             world := (Fatalf env format v w).1 }]) := by
  obtain ⟨l, h, lg, f, hl, hh, hlg, hf⟩ := hi
  obtain ⟨L, once, files, trace⟩ := w
  obtain ⟨cfg, lf, lgo⟩ := l
  simp only at hl hh hlg hf
  subst hl hh hlg
  obtain ⟨tag, ht, -⟩ := declared_tag hd
  have hlt : h < files.length := by
    rcases Nat.lt_or_ge h files.length with hl | hl
    · exact hl
    · rw [List.getElem?_eq_none hl] at hf; cases hf
  have hfatal : ∀ s, (logCore env FATAL s
      { Logrer := some { config := cfg, logFile := some h, logger := some lg },
        setuponce := once, files := files, trace := trace }).2 = .exit 1 := by
    intro s
    obtain ⟨tagF, htF, -⟩ := declared_tag (show Level.declared FATAL from
      Or.inr (Or.inr (Or.inr (Or.inr rfl))))
    obtain ⟨_, _, _, _, _, -, -, hc, -, -, -⟩ :=
      logCore_bound env FATAL s tagF cfg h lg once files trace f
        (Or.inr (Or.inr (Or.inr (Or.inr rfl)))) htF hf
    rw [hc]
    rfl
  have hsp := setLinePrefix_bound env level tag cfg (some h) lg once files trace ht
  -- the state after the rotation check, in its three cases
  have key : ∃ (h' : Nat) (files' : List OsFile) (mid : List Event) (out : Nat),
      setLogFile env
          { Logrer := some { config := cfg, logFile := some h,
                             logger := some { out := lg.out, linePrefix := linePrefixFor env tag } },
            setuponce := once, files := files,
            trace := trace ++ [.setPrefix (linePrefixFor env tag)] }
        = ({ Logrer := some { config := cfg, logFile := some h',
                              logger := some { out := out, linePrefix := linePrefixFor env tag } },
             setuponce := once, files := files',
             trace := trace ++ [.setPrefix (linePrefixFor env tag)] ++ mid }, .ret) ∧
      writes mid = [] ∧
      (lg.out = h → f.closed = false →
        (f.name = pathAt cfg env.now ∨ opens env (fileNameAt cfg env.now) cfg.FilePath) →
        ∃ f2, files'[out]? = some f2 ∧ f2.closed = false) ∧
      (lg.out = h → f.name ≠ pathAt cfg env.now →
        ¬ opens env (fileNameAt cfg env.now) cfg.FilePath →
        ∃ f2, files'[out]? = some f2 ∧ f2.closed = true) := by
    by_cases hname : f.name = pathAt cfg env.now
    · refine ⟨h, files, [], lg.out, ?_, rfl, ?_, ?_⟩
      · rw [setLogFile_same env cfg h _ once files _ f hf hname]; simp
      · intro ho hc _
        exact ⟨f, by rw [ho]; exact hf, hc⟩
      · intro _ hne _
        exact absurd hname hne
    · rcases MustOpen_cases env (fileNameAt cfg env.now) cfg.FilePath with ho | ⟨e, evs, hfs, he⟩
      · refine ⟨files.length, files.set h { name := f.name, closed := true } ++
            [{ name := pathAt cfg env.now, closed := false }],
          [.close h] ++ dirEvents env cfg.FilePath ++
            [.openFile (pathAt cfg env.now) openFlags 0o644 (some files.length),
             .setOutput files.length], files.length, ?_, ?_, ?_, ?_⟩
        · rw [setLogFile_reopen env cfg h _ once files _ f hf hname ho]
          simp [List.append_assoc]
        · simp only [writes_append, writes_fsOnly (fsOnly_dirEvents env _)]
          rfl
        · intro _ _ _
          refine ⟨{ name := pathAt cfg env.now, closed := false }, ?_, rfl⟩
          rw [List.getElem?_append_right (by simp)]
          simp
        · intro _ _ hno
          exact absurd ho hno
      · have hno : ¬ opens env (fileNameAt cfg env.now) cfg.FilePath := by
          intro ho
          have h1 := MustOpen_opens env (fileNameAt cfg env.now) cfg.FilePath World.init ho
          rw [he World.init] at h1
          cases congrArg Prod.snd h1
        refine ⟨h, files.set h { name := f.name, closed := true },
          [.close h] ++ evs ++ [.stderr (stdHeader env.now ++ e ++ "\n")], lg.out, ?_, ?_, ?_,
          ?_⟩
        · rw [setLogFile_reopen_fails env cfg h _ once files _ f e evs hf hname he]
          simp [List.append_assoc]
        · simp only [writes_append, writes_fsOnly hfs]
          rfl
        · intro _ _ hor
          rcases hor with hn | ho
          · exact absurd hn hname
          · exact absurd ho hno
        · intro ho _ _
          refine ⟨{ name := f.name, closed := true }, ?_, rfl⟩
          rw [ho]
          simp [hlt]
  obtain ⟨h', files', mid, out, hsl, hmid, hopen, hclosed⟩ := key
  have hcore : ∀ s, logCore env level s
      { Logrer := some { config := cfg, logFile := some h, logger := some lg },
        setuponce := once, files := files, trace := trace }
      = emitLine env level s
          { Logrer := some { config := cfg, logFile := some h',
                             logger := some { out := out, linePrefix := linePrefixFor env tag } },
            setuponce := once, files := files',
            trace := trace ++ [.setPrefix (linePrefixFor env tag)] ++ mid } := by
    intro s
    simp only [logCore, hsp, hsl]
  refine ⟨_, _, _, _, hsp, hsl, rfl, rfl, ?_, ?_, ?_, ?_, ?_, ?_, ?_, ?_, ?_⟩
  · simp only [writes_append, hmid, List.append_nil]
    simp [writes]
  · intro hnf
    rw [write_eq_logCore, writef_eq_logCore, hcore, hcore]
    rcases hd with h | h | h | h | h
    · subst h; exact ⟨rfl, rfl⟩
    · subst h; exact ⟨rfl, rfl⟩
    · subst h; exact ⟨rfl, rfl⟩
    · subst h; exact ⟨rfl, rfl⟩
    · exact absurd h hnf
  · intro hfl
    subst hfl
    rw [write_eq_logCore, writef_eq_logCore, hcore, hcore]
    exact ⟨rfl, rfl⟩
  · intro s f2 hf2 hc2
    rw [Output_eq]
    simp only at hf2
    rw [writeEvent_open _ _ f2 _ hf2 hc2]
  · intro s f2 hf2 hc2
    rw [Output_eq]
    simp only at hf2
    rw [writeEvent_closed _ _ f2 _ hf2 hc2]
  · intro cfg0 h0 lg0 f0 hl0 hout0 hf0 hc0 hor
    simp only [Option.some.injEq, logr.mk.injEq] at hl0
    obtain ⟨hcfg, hh0, hlg0⟩ := hl0
    subst hcfg hh0 hlg0
    simp only at hf0
    rw [hf] at hf0
    cases hf0
    exact hopen hout0 hc0 hor
  · intro cfg0 h0 lg0 f0 hl0 hout0 hf0 hne hno
    simp only [Option.some.injEq, logr.mk.injEq] at hl0
    obtain ⟨hcfg, hh0, hlg0⟩ := hl0
    subst hcfg hh0 hlg0
    simp only at hf0
    rw [hf] at hf0
    cases hf0
    exact hclosed hout0 hne hno
  · intro rest
    have h2 : (Fatal env v
        { Logrer := some { config := cfg, logFile := some h, logger := some lg },
          setuponce := once, files := files, trace := trace }).2 = .exit 1 := by
      rw [show ∀ w', Fatal env v w' = logCore env FATAL (Sprintln v) w' from
        fun w' => write_eq_logCore env FATAL v w']
      exact hfatal _
    simp only [exec, step, LevelFn.call, h2]
  · intro rest
    have h2 : (Fatalf env format v
        { Logrer := some { config := cfg, logFile := some h, logger := some lg },
          setuponce := once, files := files, trace := trace }).2 = .exit 1 := by
      rw [show ∀ w', Fatalf env format v w'
          = logCore env FATAL (env.sprintf (format ++ "\n") v) w' from
        fun w' => writef_eq_logCore env FATAL format v w']
      exact hfatal _
    simp only [exec, step, LevelFn.call, h2]

theorem level_dispatch_witness :
    exec [(envSameDay, .Level .Fatal "" testValues), (envNextDay, .Level .Info "" testValues)]
        worldAfterSetup
      = [{ env := envSameDay, op := .Level .Fatal "" testValues, res := .done (.exit 1),
           world :=
            { worldAfterSetup with
              Logrer := some { config := storedConfig testConfig, logFile := some 0,
                               logger := some { out := 0,
                                                linePrefix := "FATAL|log_test.go:6|" } },
              trace := worldAfterSetup.trace ++
                [.setPrefix "FATAL|log_test.go:6|",
                 .write 0 "FATAL|log_test.go:6|2026/11/04 17:30:00 12 rao [q w e]\n",
                 .exit 1] } }] := by
  obtain ⟨w1, w2, l2, lg2, -, -, -, -, -, -, -, -, -, -, -, hx, -⟩ :=
    level_dispatch envSameDay FATAL "" testValues worldAfterSetup
      (Or.inr (Or.inr (Or.inr (Or.inr rfl))))
      ⟨{ config := storedConfig testConfig, logFile := some 0,
         logger := some { out := 0, linePrefix := "" } }, 0, { out := 0, linePrefix := "" },
       { name := "runtime/consoles/console-20261104.log", closed := false }, rfl, rfl, rfl, rfl⟩
  rw [hx]
  rfl

/-- C2, as stated, fails: with print hook 7 configured at `Setup`, and likewise
with the hook installed later by `SetPrintfFunc`, an `Info` call does not call
the hook; its line is written by the default formatter to the log file. -/
theorem hook_not_called_by_Info :
    (∃ l, worldWithHook.Logrer = some l ∧ l.config.PrintfFunc = some 7) ∧
    (Info envSameDay testValues worldWithHook).1.trace
      = worldWithHook.trace ++
        [.setPrefix "INFO|log_test.go:6|",
         .write 0 "INFO|log_test.go:6|2026/11/04 17:30:00 12 rao [q w e]\n"] ∧
    (∃ l, worldHookLater.Logrer = some l ∧ l.config.PrintfFunc = some 7) ∧
    (Infof envSameDay "started" [] worldHookLater).1.trace
      = worldHookLater.trace ++
        [.setPrefix "INFO|log_test.go:6|",
         .write 0 "INFO|log_test.go:6|2026/11/04 17:30:00 started\n"] :=
  ⟨⟨_, rfl, rfl⟩, rfl, ⟨_, rfl, rfl⟩, rfl⟩

/-- C2 (amended): a configured print hook is used by the method `Printf` of the
singleton only.  With a hook configured, `Printf` calls the hook with the
logger instance, the format and the arguments, and does nothing else: the
default formatter is not called; without a hook it is the logger's `Output`
of the formatted text.  `SetPrintfFunc` on an existing singleton stores the
hook.  The ten level functions never call the hook, and what a level call
does (how it ends, its actions, the file objects) is the same with any hook
or none configured; on a singleton with bound logger and log file its `Write`
is the one of the logger's `Output`, made after actions without hook call. -/
theorem hook_only_through_Printf (env : Env) (fn : LevelFn) (format : String)
    (v : List Value) (w : World) :
    hookCalls (fn.call env format v w).1.trace = hookCalls w.trace ∧
    (∀ g : Option PrintfFunc,
      (fn.call env format v (w.withHook g)).2 = (fn.call env format v w).2 ∧
      (fn.call env format v (w.withHook g)).1.trace = (fn.call env format v w).1.trace ∧
      (fn.call env format v (w.withHook g)).1.files = (fn.call env format v w).1.files) ∧
    (Initialised w → ∃ (w2 : World) (lg2 : Logger),
      hookCalls w2.trace = hookCalls w.trace ∧
      (fn.call env format v w).1.trace
        = (lg2.Output env (fn.text env format v) w2).trace ++ exitEvents fn.level) ∧
    (∀ l f, w.Logrer = some l → l.config.PrintfFunc = some f →
      logr.Printf env format v w = (w.emit (.hook f l format v), .ret)) ∧
    (∀ l lg, w.Logrer = some l → l.config.PrintfFunc = none → l.logger = some lg →
      logr.Printf env format v w
        = (lg.Output env (env.sprintf (format ++ "\n") v) w, .ret)) ∧
    (∀ l f, w.Logrer = some l →
      SetPrintfFunc env f w = { w with Logrer := some { l with config :=
        { l.config with PrintfFunc := f } } }) := by
  refine ⟨?_, ?_, ?_, ?_, ?_, ?_⟩
  · rw [call_eq_logCore]
    exact logCore_hookCalls env _ _ w
  · intro g
    exact call_hook_frame env fn format v w g
  · intro hi
    obtain ⟨l, h, lg, f, hl, hh, hlg, hf⟩ := hi
    obtain ⟨L, once, files, trace⟩ := w
    obtain ⟨cfg, lf, lgo⟩ := l
    simp only at hl hh hlg hf
    subst hl hh hlg
    obtain ⟨tag, ht, -⟩ := declared_tag (fn_level_declared fn)
    obtain ⟨h', files', mid, out, f', -, -, hc, -, hmid, -⟩ :=
      logCore_bound env fn.level (fn.text env format v) tag cfg h lg once files trace f
        (fn_level_declared fn) ht hf
    refine ⟨World.mk (some (logr.mk cfg (some h') (some (Logger.mk out (linePrefixFor env tag)))))
        once files' (trace ++ [.setPrefix (linePrefixFor env tag)] ++ mid),
      Logger.mk out (linePrefixFor env tag), ?_, ?_⟩
    · simp only [hookCalls_append, hmid, List.append_nil]
      simp [hookCalls]
    · rw [call_eq_logCore, hc]
      rfl
  · intro l f hl hf
    simp [logr.Printf, hl, hf]
  · intro l lg hl hf hlg
    simp [logr.Printf, hl, hf, hlg]
  · intro l f hl
    simp [SetPrintfFunc, hl, World.setLogrer]

theorem hook_only_through_Printf_witness :
    logr.Printf envSameDay "started" [] worldWithHook
      = (worldWithHook.emit
          (.hook 7
            { config := { FilePath := "runtime/consoles", Encoding := "plain",
                          FileNamePrefix := "console", PrintfFunc := some 7 },
              logFile := some 0, logger := some { out := 0, linePrefix := "" } }
            "started" []), .ret) :=
  (hook_only_through_Printf envSameDay .Info "started" [] worldWithHook).2.2.2.1 _ 7 rfl rfl

/-! ## Programs -/

theorem exec_cons (env : Env) (op : Op) (rest : List (Env × Op)) (w : World) :
    exec ((env, op) :: rest) w
      = { env := env, op := op, res := (step env op w).2, world := (step env op w).1 } ::
        (if (step env op w).2.isExit then [] else exec rest (step env op w).1) := by
  rcases hs : step env op w with ⟨w1, r⟩
  cases r with
  | setup e => simp [exec, hs, Res.isExit]
  | done c => cases c <;> simp [exec, hs, Res.isExit]

theorem step_dead (env : Env) (op : Op) (w : World) (hw : Dead w) :
    Dead (step env op w).1 ∧ (step env op w).1.trace = w.trace ∧
    (step env op w).1.files = w.files ∧ (step env op w).2 = deadRes op := by
  obtain ⟨honce, l, hl, hlf, hlg⟩ := hw
  obtain ⟨L, once, files, trace⟩ := w
  obtain ⟨cfg, lf, lgo⟩ := l
  simp only at honce hl hlf hlg
  subst honce hl hlf hlg
  cases op with
  | Setup lc =>
    have hstep : step env (.Setup lc)
        { Logrer := some { config := cfg, logFile := none, logger := none },
          setuponce := true, files := files, trace := trace }
        = ({ Logrer := some { config := cfg, logFile := none, logger := none },
             setuponce := true, files := files, trace := trace }, .setup none) := by
      simp [step, Setup]
    rw [hstep]
    exact ⟨⟨rfl, _, rfl, rfl, rfl⟩, rfl, rfl, rfl⟩
  | SetPrintfFunc f =>
    have hstep : step env (.SetPrintfFunc f)
        { Logrer := some { config := cfg, logFile := none, logger := none },
          setuponce := true, files := files, trace := trace }
        = ({ Logrer := some { config := { cfg with PrintfFunc := f }, logFile := none,
                              logger := none },
             setuponce := true, files := files, trace := trace }, .done .ret) := by
      simp [step, SetPrintfFunc, World.setLogrer]
    rw [hstep]
    exact ⟨⟨rfl, _, rfl, rfl, rfl⟩, rfl, rfl, rfl⟩
  | Level fn format v =>
    obtain ⟨tag, ht, -⟩ := declared_tag (fn_level_declared fn)
    unfold tagOf at ht
    have hstep : step env (.Level fn format v)
        { Logrer := some { config := cfg, logFile := none, logger := none },
          setuponce := true, files := files, trace := trace }
        = ({ Logrer := some { config := cfg, logFile := none, logger := none },
             setuponce := true, files := files, trace := trace }, .done (.panic nilDeref)) := by
      simp only [step]
      rw [call_eq_logCore]
      simp [logCore, setLinePrefix, ht]
    rw [hstep]
    exact ⟨⟨rfl, _, rfl, rfl, rfl⟩, rfl, rfl, rfl⟩

theorem exec_dead : ∀ (steps : List (Env × Op)) (w : World), Dead w →
    (exec steps w).map (fun x => (x.env, x.op)) = steps ∧
    ∀ x ∈ exec steps w, Dead x.world ∧ x.world.trace = w.trace ∧ x.world.files = w.files ∧
      x.res = deadRes x.op := by
  intro steps
  induction steps with
  | nil => intro w _; simp [exec]
  | cons s rest ih =>
    intro w hw
    obtain ⟨env, op⟩ := s
    obtain ⟨hd1, ht1, hf1, hr1⟩ := step_dead env op w hw
    have hne : (step env op w).2.isExit = false := by
      rw [hr1]; cases op <;> rfl
    rw [exec_cons, hne]
    obtain ⟨ihm, ihx⟩ := ih _ hd1
    constructor
    · simp [ihm]
    · intro x hx
      simp only [Bool.false_eq_true, if_false, List.mem_cons] at hx
      rcases hx with hx | hx
      · subst hx
        exact ⟨hd1, ht1, hf1, hr1⟩
      · obtain ⟨a, b, c, d⟩ := ihx x hx
        exact ⟨a, b.trans ht1, c.trans hf1, d⟩

/-- C4 (failed first Setup): when `MustOpen` fails during the first `Setup`, that
call returns the error of `MustOpen`, performs only stats, directory creation
and open attempts, and leaves a singleton with a configuration, no file and no
logger; in every program run afterwards, under any answers of the system,
every call is executed, every `Setup` returns nil, every level function
panics on the nil logger, and no call adds an action to the trace or a file
object: no file is opened and no line is written. -/
theorem failed_first_Setup (env0 : Env) (c : Config) (w w' : World) (e : String)
    (hfirst : w.setuponce = false)
    (hfail : (MustOpen env0 (fileNameAt (storedConfig c) env0.now) (storedConfig c).FilePath
      w').2 = .error e) :
    (Setup env0 c w).2 = some e ∧
    Dead (Setup env0 c w).1 ∧
    (Setup env0 c w).1.files = w.files ∧
    writes (Setup env0 c w).1.trace = writes w.trace ∧
    ∀ steps : List (Env × Op),
      (exec steps (Setup env0 c w).1).map (fun x => (x.env, x.op)) = steps ∧
      ∀ x ∈ exec steps (Setup env0 c w).1,
        x.world.trace = (Setup env0 c w).1.trace ∧ x.world.files = w.files ∧
        (∀ lc, x.op = .Setup lc → x.res = .setup none) ∧
        (∀ fn format v, x.op = .Level fn format v → x.res = .done (.panic nilDeref)) := by
  have hno : ¬ opens env0 (fileNameAt (storedConfig c) env0.now) (storedConfig c).FilePath := by
    intro ho
    rw [MustOpen_opens _ _ _ _ ho] at hfail
    cases hfail
  obtain ⟨e', evs, hs, hm, hfs⟩ := Setup_first_fails env0 c w hfirst hno
  have he : e' = e := by
    rw [hm w'] at hfail
    injection hfail
  subst he
  have hdead : Dead (Setup env0 c w).1 := by
    rw [hs]; exact ⟨rfl, _, rfl, rfl, rfl⟩
  refine ⟨by rw [hs], hdead, by rw [hs], ?_, ?_⟩
  · rw [hs]
    simp only [writes_append, writes_fsOnly hfs, List.append_nil]
  · intro steps
    obtain ⟨hmap, hall⟩ := exec_dead steps _ hdead
    refine ⟨hmap, ?_⟩
    intro x hx
    obtain ⟨-, ht, hf, hr⟩ := hall x hx
    refine ⟨ht, ?_, ?_, ?_⟩
    · rw [hf, hs]
    · intro lc hop
      rw [hr, hop]; rfl
    · intro fn format v hop
      rw [hr, hop]; rfl

theorem failed_first_Setup_witness :
    (Setup envReadOnly testConfig World.init).2 = some "fail to open file: permission denied" ∧
    (exec [(envFresh, .Level .Info "" testValues), (envFresh, .Setup {})]
        (Setup envReadOnly testConfig World.init).1).map (fun x => x.res)
      = [.done (.panic nilDeref), .setup none] := by
  obtain ⟨h1, -, -, -, h2⟩ :=
    failed_first_Setup envReadOnly testConfig World.init World.init
      "fail to open file: permission denied" rfl rfl
  exact ⟨h1, rfl⟩

/-! ## Rotation -/

theorem pathAt_eq_iff (cfg : Config) (a b : Time) :
    pathAt cfg a = pathAt cfg b ↔ dayFormat a = dayFormat b := by
  constructor
  · intro h
    exact path_inj h
  · intro h
    simp [pathAt, fileNameAt, h]

theorem fileNameAt_ne (cfg : Config) {a b : Time} (ha : a.validDate) (hb : b.validDate)
    (h : ¬ a.sameDate b) : fileNameAt cfg b ≠ fileNameAt cfg a := by
  intro hc
  apply h
  apply dayFormat_inj ha hb
  have : pathAt cfg a = pathAt cfg b := by simp [pathAt, hc]
  exact (pathAt_eq_iff cfg a b).1 this

/-- A level call when the open file is the one of today: no close, no open. -/
theorem call_same_day (env : Env) (fn : LevelFn) (format : String) (v : List Value)
    (cfg : Config) (h : Nat) (lg : Logger) (once : Bool) (files : List OsFile)
    (trace : List Event) (f : OsFile) (t : Time)
    (hf : files[h]? = some f) (hname : f.name = pathAt cfg t)
    (hday : dayFormat env.now = dayFormat t) :
    ∃ tag, tagOf fn.level = some tag ∧
    fn.call env format v
        { Logrer := some { config := cfg, logFile := some h, logger := some lg },
          setuponce := once, files := files, trace := trace }
      = ({ Logrer := some { config := cfg, logFile := some h,
                            logger := some { out := lg.out, linePrefix := linePrefixFor env tag } },
           setuponce := once, files := files,
           trace := trace ++ [.setPrefix (linePrefixFor env tag)] ++
             [writeEvent files lg.out
                (lineOf (linePrefixFor env tag) env (fn.text env format v))] ++
             exitEvents fn.level },
         ctlOf fn.level) := by
  obtain ⟨tag, ht, -⟩ := declared_tag (fn_level_declared fn)
  refine ⟨tag, ht, ?_⟩
  rw [call_eq_logCore]
  exact logCore_same env _ _ tag cfg h lg once files trace f (fn_level_declared fn) ht hf
    (hname.trans ((pathAt_eq_iff cfg t env.now).2 hday.symm))

/-- A level call when the open file is the one of another day and the system
lets the file of today be opened: close, open, rebind, then the line. -/
theorem call_next_day (env : Env) (fn : LevelFn) (format : String) (v : List Value)
    (cfg : Config) (h : Nat) (lg : Logger) (once : Bool) (files : List OsFile)
    (trace : List Event) (f : OsFile) (t : Time)
    (hf : files[h]? = some f) (hname : f.name = pathAt cfg t)
    (hday : dayFormat env.now ≠ dayFormat t)
    (ho : opens env (fileNameAt cfg env.now) cfg.FilePath) :
    ∃ tag, tagOf fn.level = some tag ∧
    fn.call env format v
        { Logrer := some { config := cfg, logFile := some h, logger := some lg },
          setuponce := once, files := files, trace := trace }
      = ({ Logrer := some { config := cfg, logFile := some files.length,
                            logger := some { out := files.length,
                                             linePrefix := linePrefixFor env tag } },
           setuponce := once,
           files := files.set h { name := f.name, closed := true } ++
             [{ name := pathAt cfg env.now, closed := false }],
           trace := trace ++ [.setPrefix (linePrefixFor env tag)] ++ [.close h] ++
             dirEvents env cfg.FilePath ++
             [.openFile (pathAt cfg env.now) openFlags 0o644 (some files.length),
              .setOutput files.length] ++
             [.write files.length (lineOf (linePrefixFor env tag) env (fn.text env format v))] ++
             exitEvents fn.level },
         ctlOf fn.level) := by
  obtain ⟨tag, ht, -⟩ := declared_tag (fn_level_declared fn)
  refine ⟨tag, ht, ?_⟩
  rw [call_eq_logCore]
  refine logCore_reopen env _ _ tag cfg h lg once files trace f (fn_level_declared fn) ht hf ?_ ho
  rw [hname]
  intro hc
  exact hday ((pathAt_eq_iff cfg t env.now).1 hc).symm

/-- A level call when the open file is the one of another day and the file of
today cannot be opened: the failure is reported on the standard error stream
and the old, closed file stays in place. -/
theorem call_next_day_fails (env : Env) (fn : LevelFn) (format : String) (v : List Value)
    (cfg : Config) (h : Nat) (lg : Logger) (once : Bool) (files : List OsFile)
    (trace : List Event) (f : OsFile) (t : Time)
    (hf : files[h]? = some f) (hname : f.name = pathAt cfg t)
    (hday : dayFormat env.now ≠ dayFormat t)
    (ho : ¬ opens env (fileNameAt cfg env.now) cfg.FilePath) :
    ∃ tag e evs, tagOf fn.level = some tag ∧ fsOnly evs ∧
    fn.call env format v
        { Logrer := some { config := cfg, logFile := some h, logger := some lg },
          setuponce := once, files := files, trace := trace }
      = ({ Logrer := some { config := cfg, logFile := some h,
                            logger := some { out := lg.out, linePrefix := linePrefixFor env tag } },
           setuponce := once,
           files := files.set h { name := f.name, closed := true },
           trace := trace ++ [.setPrefix (linePrefixFor env tag)] ++ [.close h] ++ evs ++
             [.stderr (stdHeader env.now ++ e ++ "\n")] ++
             [writeEvent (files.set h { name := f.name, closed := true }) lg.out
                (lineOf (linePrefixFor env tag) env (fn.text env format v))] ++
             exitEvents fn.level },
         ctlOf fn.level) := by
  obtain ⟨tag, ht, -⟩ := declared_tag (fn_level_declared fn)
  rcases MustOpen_cases env (fileNameAt cfg env.now) cfg.FilePath with ho' | ⟨e, evs, hfs, he⟩
  · exact absurd ho' ho
  · refine ⟨tag, e, evs, ht, hfs, ?_⟩
    rw [call_eq_logCore]
    refine logCore_reopen_fails env _ _ tag cfg h lg once files trace f e evs
      (fn_level_declared fn) ht hf ?_ he
    rw [hname]
    intro hc
    exact hday ((pathAt_eq_iff cfg t env.now).1 hc).symm

/-- C6, as stated, fails.  After `Setup` on 4 November, an `Info` call on
5 November whose reopening is refused returns and leaves the closed file of
4 November in place.  Converse: the next `Info` call, on the same 5 November,
closes the handle and tries to reopen again.  Date change: a next `Info` call
on 4 November instead, under a system on which every open succeeds, neither
closes nor opens anything, and its `Write` goes to the closed file. -/
theorem same_day_write_reopens :
    Initialised worldAfterSetup ∧
    (Info envReadOnly testValues worldAfterSetup).2 = .ret ∧
    Initialised (Info envReadOnly testValues worldAfterSetup).1 ∧
    envReadOnly.now.sameDate envReadOnly.now ∧
    (Info envReadOnly testValues (Info envReadOnly testValues worldAfterSetup).1).1.trace
      = (Info envReadOnly testValues worldAfterSetup).1.trace ++
        [.setPrefix "INFO|log_test.go:6|",
         .close 0,
         .stat "runtime/consoles", .stat "runtime/consoles",
         .openFile "runtime/consoles/console-20261105.log" 0x442 0o644 none,
         .stderr "2026/11/05 00:00:01 fail to open file: permission denied\n",
         .writeRefused 0 "INFO|log_test.go:6|2026/11/05 00:00:01 12 rao [q w e]\n"] ∧
    ¬ envReadOnly.now.sameDate envSameDay.now ∧
    opens envSameDay (fileNameAt (storedConfig testConfig) envSameDay.now)
      (storedConfig testConfig).FilePath ∧
    (Info envSameDay testValues (Info envReadOnly testValues worldAfterSetup).1).1.trace
      = (Info envReadOnly testValues worldAfterSetup).1.trace ++
        [.setPrefix "INFO|log_test.go:6|",
         .writeRefused 0 "INFO|log_test.go:6|2026/11/04 17:30:00 12 rao [q w e]\n"] :=
  ⟨⟨_, _, _, _, rfl, rfl, rfl, rfl⟩, rfl, ⟨_, _, _, _, rfl, rfl, rfl, rfl⟩, by decide, rfl,
    by decide, ⟨by decide, fun _ => rfl, rfl⟩, rfl⟩

/-- C6 (amended): take a singleton with bound logger and log file `f`, and a
write on date d1 that returns; it leaves a file `f1` in place: the file of d1
when the write needed no reopening or its reopening succeeded, the closed old
file `f` when its reopening failed.  If the next write is on a different
calendar date d2, `f1` is not already the file of d2 (it never is when it is
the file of d1) and the reopening succeeds, then the file name the second
write targets is `P-YYYYMMDD(d2).log`, differs from the first's, the first
handle is closed before the new file is opened under the directory, the
logger's output is rebound to the new handle, and only then is the line
written, to the new handle.  If the next write is on the same date and `f1`
is the file of that date, `setLogFile` changes nothing: no close, no open, and
the `Write` goes to the same output. -/
theorem rotation_on_date_change (env1 env2 : Env) (fn1 fn2 : LevelFn)
    (format1 format2 : String) (v1 v2 : List Value) (w : World)
    (cfg : Config) (h : Nat) (lg : Logger) (f : OsFile)
    (hl : w.Logrer = some { config := cfg, logFile := some h, logger := some lg })
    (hf : w.files[h]? = some f)
    (hret : fn1.level ≠ FATAL)
    (hv1 : env1.now.validDate) (hv2 : env2.now.validDate) :
    ∃ w1 h1 lg1 f1,
      fn1.call env1 format1 v1 w = (w1, .ret) ∧
      w1.Logrer = some { config := cfg, logFile := some h1, logger := some lg1 } ∧
      w1.files[h1]? = some f1 ∧
      (f.name = cfg.FilePath ++ "/" ++ fileNameAt cfg env1.now ∨
          opens env1 (fileNameAt cfg env1.now) cfg.FilePath →
        f1.name = cfg.FilePath ++ "/" ++ fileNameAt cfg env1.now) ∧
      (f.name ≠ cfg.FilePath ++ "/" ++ fileNameAt cfg env1.now →
          ¬ opens env1 (fileNameAt cfg env1.now) cfg.FilePath →
        h1 = h ∧ f1 = { name := f.name, closed := true }) ∧
      (¬ env1.now.sameDate env2.now →
        f1.name = cfg.FilePath ++ "/" ++ fileNameAt cfg env1.now →
        f1.name ≠ cfg.FilePath ++ "/" ++ fileNameAt cfg env2.now) ∧
      (¬ env1.now.sameDate env2.now →
        f1.name ≠ cfg.FilePath ++ "/" ++ fileNameAt cfg env2.now →
        opens env2 (fileNameAt cfg env2.now) cfg.FilePath →
        fileNameAt cfg env2.now ≠ fileNameAt cfg env1.now ∧
        fileNameAt cfg env2.now = cfg.FileNamePrefix ++ "-" ++ dayFormat env2.now ++ ".log" ∧
        ∃ p line w2,
          fn2.call env2 format2 v2 w1 = (w2, ctlOf fn2.level) ∧
          w2.trace = w1.trace ++ [.setPrefix p, .close h1] ++ dirEvents env2 cfg.FilePath ++
            [.openFile (cfg.FilePath ++ "/" ++ fileNameAt cfg env2.now)
                (O_APPEND ||| O_CREATE ||| O_RDWR) 0o644 (some w1.files.length),
             .setOutput w1.files.length,
             .write w1.files.length line] ++ exitEvents fn2.level ∧
          w2.Logrer = some { config := cfg, logFile := some w1.files.length,
                             logger := some { out := w1.files.length, linePrefix := p } } ∧
          w2.files = w1.files.set h1 { name := f1.name, closed := true } ++
            [{ name := cfg.FilePath ++ "/" ++ fileNameAt cfg env2.now, closed := false }]) ∧
      (env1.now.sameDate env2.now →
        f1.name = cfg.FilePath ++ "/" ++ fileNameAt cfg env1.now →
        setLogFile env2 (setLinePrefix env2 fn2.level w1).1
          = ((setLinePrefix env2 fn2.level w1).1, .ret) ∧
        ∃ p line w2,
          fn2.call env2 format2 v2 w1 = (w2, ctlOf fn2.level) ∧
          w2.trace = w1.trace ++ [.setPrefix p, writeEvent w1.files lg1.out line] ++
            exitEvents fn2.level ∧
          w2.files = w1.files ∧
          w2.Logrer = some { config := cfg, logFile := some h1,
                             logger := some { out := lg1.out, linePrefix := p } }) := by
  obtain ⟨L, once, files, trace⟩ := w
  simp only at hl hf
  subst hl
  have hctl : ctlOf fn1.level = .ret := by simp [ctlOf, hret]
  have hex : exitEvents fn1.level = [] := by simp [exitEvents, hret]
  have hlt : h < files.length := by
    rcases Nat.lt_or_ge h files.length with hl | hl
    · exact hl
    · rw [List.getElem?_eq_none hl] at hf; cases hf
  -- the second write, from any state with a file `f1` in place
  have second : ∀ (w1 : World) (h1 : Nat) (lg1 : Logger) (f1 : OsFile),
      w1.Logrer = some { config := cfg, logFile := some h1, logger := some lg1 } →
      w1.files[h1]? = some f1 →
      (¬ env1.now.sameDate env2.now →
        f1.name = cfg.FilePath ++ "/" ++ fileNameAt cfg env1.now →
        f1.name ≠ cfg.FilePath ++ "/" ++ fileNameAt cfg env2.now) ∧
      (¬ env1.now.sameDate env2.now →
        f1.name ≠ cfg.FilePath ++ "/" ++ fileNameAt cfg env2.now →
        opens env2 (fileNameAt cfg env2.now) cfg.FilePath →
        fileNameAt cfg env2.now ≠ fileNameAt cfg env1.now ∧
        fileNameAt cfg env2.now = cfg.FileNamePrefix ++ "-" ++ dayFormat env2.now ++ ".log" ∧
        ∃ p line w2,
          fn2.call env2 format2 v2 w1 = (w2, ctlOf fn2.level) ∧
          w2.trace = w1.trace ++ [.setPrefix p, .close h1] ++ dirEvents env2 cfg.FilePath ++
            [.openFile (cfg.FilePath ++ "/" ++ fileNameAt cfg env2.now)
                (O_APPEND ||| O_CREATE ||| O_RDWR) 0o644 (some w1.files.length),
             .setOutput w1.files.length,
             .write w1.files.length line] ++ exitEvents fn2.level ∧
          w2.Logrer = some { config := cfg, logFile := some w1.files.length,
                             logger := some { out := w1.files.length, linePrefix := p } } ∧
          w2.files = w1.files.set h1 { name := f1.name, closed := true } ++
            [{ name := cfg.FilePath ++ "/" ++ fileNameAt cfg env2.now, closed := false }]) ∧
      (env1.now.sameDate env2.now →
        f1.name = cfg.FilePath ++ "/" ++ fileNameAt cfg env1.now →
        setLogFile env2 (setLinePrefix env2 fn2.level w1).1
          = ((setLinePrefix env2 fn2.level w1).1, .ret) ∧
        ∃ p line w2,
          fn2.call env2 format2 v2 w1 = (w2, ctlOf fn2.level) ∧
          w2.trace = w1.trace ++ [.setPrefix p, writeEvent w1.files lg1.out line] ++
            exitEvents fn2.level ∧
          w2.files = w1.files ∧
          w2.Logrer = some { config := cfg, logFile := some h1,
                             logger := some { out := lg1.out, linePrefix := p } }) := by
    intro w1 h1 lg1 f1 hl1 hf1
    obtain ⟨L1, once1, files1, trace1⟩ := w1
    simp only at hl1 hf1
    subst hl1
    refine ⟨?_, ?_, ?_⟩
    · intro hdiff hn1 hc
      rw [hn1] at hc
      exact hdiff (dayFormat_inj hv1 hv2 ((pathAt_eq_iff cfg env1.now env2.now).1 hc))
    · intro hdiff hne ho2
      obtain ⟨tag, ht, -⟩ := declared_tag (fn_level_declared fn2)
      have hc := logCore_reopen env2 fn2.level (fn2.text env2 format2 v2) tag cfg h1 lg1 once1
        files1 trace1 f1 (fn_level_declared fn2) ht hf1 hne ho2
      rw [← call_eq_logCore] at hc
      refine ⟨fileNameAt_ne cfg hv1 hv2 hdiff, rfl, linePrefixFor env2 tag,
        lineOf (linePrefixFor env2 tag) env2 (fn2.text env2 format2 v2), _, hc, ?_, rfl, rfl⟩
      simp [pathAt, openFlags, List.append_assoc]
    · intro hsame hn1
      have hday : dayFormat env2.now = dayFormat env1.now := (dayFormat_congr hsame).symm
      obtain ⟨tag, ht, hc⟩ := call_same_day env2 fn2 format2 v2 cfg h1 lg1 once1 files1 trace1 f1
        env1.now hf1 hn1 hday
      constructor
      · rw [setLinePrefix_bound env2 fn2.level tag cfg (some h1) lg1 once1 files1 trace1 ht]
        exact setLogFile_same env2 cfg h1 _ once1 files1 _ f1 hf1
          (hn1.trans ((pathAt_eq_iff cfg env1.now env2.now).2 hday.symm))
      · exact ⟨linePrefixFor env2 tag,
          lineOf (linePrefixFor env2 tag) env2 (fn2.text env2 format2 v2), _, hc,
          by simp [List.append_assoc], rfl, rfl⟩
  by_cases hname : f.name = pathAt cfg env1.now
  · obtain ⟨tag, -, hc⟩ := call_same_day env1 fn1 format1 v1 cfg h lg once files trace f
      env1.now hf hname rfl
    rw [hctl, hex] at hc
    exact ⟨_, h, _, f, hc, rfl, hf, fun _ => hname, fun hne _ => absurd hname hne,
      second _ h _ f rfl hf⟩
  · rcases MustOpen_cases env1 (fileNameAt cfg env1.now) cfg.FilePath with
      ho1 | ⟨e, evs, hfs, he⟩
    · obtain ⟨tag, ht, -⟩ := declared_tag (fn_level_declared fn1)
      have hc := logCore_reopen env1 fn1.level (fn1.text env1 format1 v1) tag cfg h lg once files
        trace f (fn_level_declared fn1) ht hf hname ho1
      rw [← call_eq_logCore, hctl, hex] at hc
      have hnew : (files.set h { name := f.name, closed := true } ++
          [{ name := pathAt cfg env1.now, closed := false }])[files.length]?
          = some { name := pathAt cfg env1.now, closed := false } := by
        rw [List.getElem?_append_right (by simp)]
        simp
      exact ⟨_, files.length, _, { name := pathAt cfg env1.now, closed := false }, hc, rfl,
        hnew, fun _ => rfl, fun _ hno => absurd ho1 hno, second _ files.length _ _ rfl hnew⟩
    · have hno : ¬ opens env1 (fileNameAt cfg env1.now) cfg.FilePath := by
        intro ho
        have h1 := MustOpen_opens env1 (fileNameAt cfg env1.now) cfg.FilePath World.init ho
        rw [he World.init] at h1
        cases congrArg Prod.snd h1
      obtain ⟨tag, ht, -⟩ := declared_tag (fn_level_declared fn1)
      have hc := logCore_reopen_fails env1 fn1.level (fn1.text env1 format1 v1) tag cfg h lg once
        files trace f e evs (fn_level_declared fn1) ht hf hname he
      rw [← call_eq_logCore, hctl, hex] at hc
      have hold : (files.set h { name := f.name, closed := true })[h]?
          = some { name := f.name, closed := true } := by
        simp [hlt]
      refine ⟨_, h, _, { name := f.name, closed := true }, hc, rfl, hold, ?_, ?_,
        second _ h _ _ rfl hold⟩
      · intro hor
        rcases hor with hn | ho
        · exact absurd hn hname
        · exact absurd ho hno
      · intro _ _
        exact ⟨rfl, rfl⟩

theorem rotation_on_date_change_witness :
    fileNameAt (storedConfig testConfig) envNextDay.now
      ≠ fileNameAt (storedConfig testConfig) envSameDay.now ∧
    fileNameAt (storedConfig testConfig) envNextDay.now = "console-20261105.log" := by
  obtain ⟨w1, h1, lg1, f1, -, -, -, hn, -, hne, hdiff, -⟩ :=
    rotation_on_date_change envSameDay envNextDay .Info .Info "" "" testValues testValues
      worldAfterSetup (storedConfig testConfig) 0 { out := 0, linePrefix := "" }
      { name := "runtime/consoles/console-20261104.log", closed := false }
      rfl rfl (by decide) (by decide) (by decide)
  obtain ⟨hne', heq, -⟩ := hdiff (by decide) (hne (by decide) (hn (Or.inl rfl)))
    ⟨by decide, fun _ => rfl, rfl⟩
  exact ⟨hne', heq.trans rfl⟩

/-! ## The sink along a program -/

theorem exec_mem_steps : ∀ (steps : List (Env × Op)) (w : World),
    ∀ x ∈ exec steps w, (x.env, x.op) ∈ steps := by
  intro steps
  induction steps with
  | nil => intro w x hx; simp [exec] at hx
  | cons s rest ih =>
    intro w x hx
    obtain ⟨env, op⟩ := s
    rw [exec_cons] at hx
    rcases List.mem_cons.1 hx with hx | hx
    · subst hx; exact List.mem_cons_self _ _
    · split at hx
      · simp at hx
      · exact List.mem_cons_of_mem _ (ih _ x hx)

/-- Consecutive entries of a run: the later call starts from the world the
earlier one left. -/
theorem exec_chain : ∀ (steps : List (Env × Op)) (w : World) (i : Nat)
    (x y : Entry),
    (exec steps w)[i]? = some x → (exec steps w)[i + 1]? = some y →
    step y.env y.op x.world = (y.world, y.res) := by
  intro steps
  induction steps with
  | nil => intro w i x y hx; simp [exec] at hx
  | cons s rest ih =>
    intro w i x y hx hy
    obtain ⟨env, op⟩ := s
    rw [exec_cons] at hx hy
    rw [List.getElem?_cons_succ] at hy
    cases i with
    | zero =>
      simp only [List.getElem?_cons_zero, Option.some.injEq] at hx
      subst hx
      split at hy
      · simp at hy
      · cases rest with
        | nil => simp [exec] at hy
        | cons s' rest' =>
          obtain ⟨env', op'⟩ := s'
          rw [exec_cons] at hy
          simp only [List.getElem?_cons_zero, Option.some.injEq] at hy
          subst hy
          rfl
    | succ i' =>
      rw [List.getElem?_cons_succ] at hx
      split at hx
      · simp at hx
      · rename_i hne
        rw [if_neg hne] at hy
        exact ih _ i' x y hx hy

theorem reopenFailures_self_append_ne (a : List Event) (b : List Event) (e : Event)
    (he : reopenFailures [e] = [e]) :
    reopenFailures (a ++ b ++ [e]) ≠ reopenFailures a ++ reopenFailures b := by
  rw [reopenFailures_append, reopenFailures_append, he]
  intro h
  have := congrArg List.length h
  simp at this

/-- One level call from a state whose sink is the open file of day `t`, when no
reopening failure is reported during the call. -/
theorem call_from_sink (D P : String) (t : Time) (w : World) (env : Env) (fn : LevelFn)
    (format : String) (v : List Value) (hs : SinkAt D P t w)
    (hq : reopenFailures (fn.call env format v w).1.trace = reopenFailures w.trace) :
    (fn.call env format v w).2 = ctlOf fn.level ∧
    SinkAt D P env.now (fn.call env format v w).1 ∧
    (dayFormat env.now ≠ dayFormat t →
      ∃ hOld p line, w.Logrer.bind (fun l => l.logFile) = some hOld ∧
        (fn.call env format v w).1.trace =
          w.trace ++ [.setPrefix p, .close hOld] ++ dirEvents env D ++
            [.openFile (D ++ "/" ++ (P ++ "-" ++ dayFormat env.now ++ ".log"))
                (O_APPEND ||| O_CREATE ||| O_RDWR) 0o644 (some w.files.length),
             .setOutput w.files.length,
             .write w.files.length line] ++ exitEvents fn.level) := by
  obtain ⟨l, h, lg, hl, hD, hP, hh, hlg, hout, hf⟩ := hs
  obtain ⟨L, once, files, trace⟩ := w
  obtain ⟨cfg, lf, lgo⟩ := l
  simp only at hl hD hP hh hlg hf
  subst hl hh hlg hD hP
  have hname : (OsFile.mk (cfg.FilePath ++ "/" ++
      (cfg.FileNamePrefix ++ "-" ++ dayFormat t ++ ".log")) false).name = pathAt cfg t := rfl
  by_cases hday : dayFormat env.now = dayFormat t
  · obtain ⟨tag, -, hc⟩ := call_same_day env fn format v cfg h lg once files trace _ t hf hname
      hday
    rw [hc]
    refine ⟨rfl, ⟨_, h, _, rfl, rfl, rfl, rfl, rfl, hout, ?_⟩, fun hne => absurd hday hne⟩
    simp only [hf, hday]
  · by_cases ho : opens env (fileNameAt cfg env.now) cfg.FilePath
    · obtain ⟨tag, -, hc⟩ := call_next_day env fn format v cfg h lg once files trace _ t hf
        hname hday ho
      rw [hc]
      refine ⟨rfl, ⟨_, files.length, _, rfl, rfl, rfl, rfl, rfl, rfl, ?_⟩, fun _ => ?_⟩
      · simp only
        rw [List.getElem?_append_right (by simp)]
        simp [pathAt, fileNameAt]
      · refine ⟨h, linePrefixFor env tag,
          lineOf (linePrefixFor env tag) env (fn.text env format v), rfl, ?_⟩
        simp [pathAt, fileNameAt, openFlags, List.append_assoc]
    · exfalso
      obtain ⟨tag, e, evs, -, hfs, hc⟩ := call_next_day_fails env fn format v cfg h lg once files
        trace _ t hf hname hday ho
      rw [hc] at hq
      simp only [reopenFailures_append, reopenFailures_fsOnly hfs, reopenFailures_exitEvents,
        List.append_nil] at hq
      have := congrArg List.length hq
      simp [reopenFailures] at this

theorem exec_sink (D P : String) : ∀ (steps : List (Env × Op)) (w : World) (t : Time),
    SinkAt D P t w →
    (∀ s ∈ steps, ∃ fn format v, s.2 = .Level fn format v) →
    (∀ x ∈ exec steps w, reopenFailures x.world.trace = reopenFailures w.trace) →
    ∀ x ∈ exec steps w, SinkAt D P x.env.now x.world := by
  intro steps
  induction steps with
  | nil => intro w t _ _ _ x hx; simp [exec] at hx
  | cons s rest ih =>
    intro w t hs hw hq x hx
    obtain ⟨env, op⟩ := s
    obtain ⟨fn, format, v, hop⟩ := hw (env, op) (List.mem_cons_self _ _)
    simp only at hop
    subst hop
    rw [exec_cons] at hx hq
    have hq0 := hq _ (List.mem_cons_self _ _)
    simp only [step] at hq0
    obtain ⟨-, hs1, -⟩ := call_from_sink D P t w env fn format v hs hq0
    rcases List.mem_cons.1 hx with hx | hx
    · subst hx
      exact hs1
    · split at hx
      · simp at hx
      · rename_i hne
        rw [if_neg hne] at hq
        refine ih _ env.now hs1 (fun s hs' => hw s (List.mem_cons_of_mem _ hs')) ?_ x hx
        intro y hy
        rw [hq y (List.mem_cons_of_mem _ hy)]
        exact hq0.symm

/-- C7, as stated, fails: after a successful `Setup` on 4 November, an `Info`
call on 5 November under a system that refuses the open leaves, as the
logger's file, the closed file of 4 November, not the file of 5 November. -/
theorem sink_path_broken_by_failed_reopen :
    (Setup envFresh testConfig World.init).2 = none ∧
    (exec [(envReadOnly, .Level .Info "" testValues)] (Setup envFresh testConfig World.init).1).map
        (fun x => (x.res, x.world.Logrer, x.world.files))
      = [(.done .ret,
          some { config := storedConfig testConfig, logFile := some 0,
                 logger := some { out := 0, linePrefix := "INFO|log_test.go:6|" } },
          [{ name := "runtime/consoles/console-20261104.log", closed := true }])] ∧
    (storedConfig testConfig).FilePath ++ "/" ++ ((storedConfig testConfig).FileNamePrefix ++
        "-" ++ dayFormat envReadOnly.now ++ ".log") = "runtime/consoles/console-20261105.log" :=
  ⟨rfl, rfl, by decide⟩

/-- C7 (amended): start from a successful first `Setup` and run any sequence of
level-function calls, at any valid calendar dates and under any answers of the
system, in which no reopening failure is reported.  Then right after `Setup`,
and immediately after each write, the singleton's log file and its logger's
output are one open handle whose path is
`directory/prefix-YYYYMMDD(now).log` for the date of that write; and whenever
the date of a write differs from the date of the previous write, the actions
of that write are: set the prefix, close the previous handle, stat the
directory (creating it when missing), open the new file, rebind the logger's
output, and only then write the line, to the new handle. -/
theorem sink_path_invariant (env0 : Env) (c : Config) (steps : List (Env × Op))
    (hsetup : (Setup env0 c World.init).2 = none)
    (hwrites : ∀ s ∈ steps, ∃ fn format v, s.2 = .Level fn format v)
    (hdates : ∀ s ∈ steps, s.1.now.validDate)
    (hreopen : ∀ x ∈ exec steps (Setup env0 c World.init).1,
      reopenFailures x.world.trace = []) :
    SinkAt (storedConfig c).FilePath (storedConfig c).FileNamePrefix env0.now
      (Setup env0 c World.init).1 ∧
    (∀ x ∈ exec steps (Setup env0 c World.init).1,
      SinkAt (storedConfig c).FilePath (storedConfig c).FileNamePrefix x.env.now x.world) ∧
    (∀ i x y, (exec steps (Setup env0 c World.init).1)[i]? = some x →
      (exec steps (Setup env0 c World.init).1)[i + 1]? = some y →
      ¬ x.env.now.sameDate y.env.now →
      ∃ fn format v hOld p line,
        y.op = .Level fn format v ∧
        x.world.Logrer.bind (fun l => l.logFile) = some hOld ∧
        y.world.trace =
          x.world.trace ++ [.setPrefix p, .close hOld] ++
            dirEvents y.env (storedConfig c).FilePath ++
            [.openFile ((storedConfig c).FilePath ++ "/" ++
                ((storedConfig c).FileNamePrefix ++ "-" ++ dayFormat y.env.now ++ ".log"))
                (O_APPEND ||| O_CREATE ||| O_RDWR) 0o644 (some x.world.files.length),
             .setOutput x.world.files.length,
             .write x.world.files.length line] ++ exitEvents fn.level) := by
  have ho := (Setup_ok_iff env0 c World.init rfl).1 hsetup
  have hw1 := Setup_first_opens env0 c World.init rfl ho
  have hs0 : SinkAt (storedConfig c).FilePath (storedConfig c).FileNamePrefix env0.now
      (Setup env0 c World.init).1 := by
    rw [hw1]
    exact ⟨_, 0, _, rfl, rfl, rfl, rfl, rfl, rfl, rfl⟩
  have hq0 : reopenFailures (Setup env0 c World.init).1.trace = [] := by
    rw [hw1]
    simp only [World.init, List.nil_append]
    exact reopenFailures_fsOnly (fsOnly_dirEvents_open env0 _ _ rfl)
  have hall := exec_sink _ _ steps _ env0.now hs0 hwrites
    (fun x hx => by rw [hreopen x hx, hq0])
  refine ⟨hs0, hall, ?_⟩
  intro i x y hx hy hdiff
  have hxm := List.getElem?_mem hx
  have hym := List.getElem?_mem hy
  obtain ⟨fn, format, v, hop⟩ := hwrites _ (exec_mem_steps _ _ y hym)
  simp only at hop
  have hch := exec_chain _ _ i x y hx hy
  rw [hop] at hch
  simp only [step, Prod.mk.injEq] at hch
  obtain ⟨hyw, -⟩ := hch
  have hq : reopenFailures (fn.call y.env format v x.world).1.trace
      = reopenFailures x.world.trace := by
    rw [hyw, hreopen x hxm, hreopen y hym]
  have hvx := hdates _ (exec_mem_steps _ _ x hxm)
  have hvy := hdates _ (exec_mem_steps _ _ y hym)
  simp only at hvx hvy
  have hday : dayFormat y.env.now ≠ dayFormat x.env.now := fun hc =>
    hdiff (dayFormat_inj hvx hvy hc.symm)
  obtain ⟨-, -, hrot⟩ := call_from_sink _ _ x.env.now x.world y.env fn format v (hall x hxm) hq
  obtain ⟨hOld, p, line, hh, htr⟩ := hrot hday
  rw [hyw] at htr
  exact ⟨fn, format, v, hOld, p, line, hop, hh, htr⟩

theorem sink_path_invariant_witness :
    SinkAt "runtime/consoles" "console" envNextDay.now
      (Info envNextDay testValues (Info envSameDay testValues worldAfterSetup).1).1 := by
  have he : exec [(envSameDay, .Level .Info "" testValues),
      (envNextDay, .Level .Info "" testValues)] (Setup envFresh testConfig World.init).1
      = [{ env := envSameDay, op := .Level .Info "" testValues, res := .done .ret,
           world := (Info envSameDay testValues worldAfterSetup).1 },
         { env := envNextDay, op := .Level .Info "" testValues, res := .done .ret,
           world := (Info envNextDay testValues
             (Info envSameDay testValues worldAfterSetup).1).1 }] := rfl
  obtain ⟨-, hall, -⟩ := sink_path_invariant envFresh testConfig
    [(envSameDay, .Level .Info "" testValues), (envNextDay, .Level .Info "" testValues)]
    rfl
    (by intro s hs; simp at hs; rcases hs with h | h <;> subst h <;> exact ⟨_, _, _, rfl⟩)
    (by intro s hs; simp at hs; rcases hs with h | h <;> subst h <;> decide)
    (by
      intro x hx
      rw [he] at hx
      simp at hx
      rcases hx with h | h <;> subst h <;> rfl)
  exact hall { env := envNextDay, op := .Level .Info "" testValues, res := .done .ret,
               world := (Info envNextDay testValues
                 (Info envSameDay testValues worldAfterSetup).1).1 }
    (by rw [he]; simp)

end Logr
